import Mathlib

/-!
Verification of the SODAR main-data-file checker (`scintec/report.py`).

The Python program is shallowly embedded: Python strings are Lean `String`
(whose logical model is a `List Char`), each Python string operation used by
the source is re-implemented over `.data`, fallible Python code (exceptions)
is modelled with `Except Err`, `datetime` values are modelled by their
injective image as seconds since the civil epoch, and the process-wide
mutable collections of `main` are threaded through an explicit state record.
-/

set_option maxRecDepth 200000

deriving instance DecidableEq for Except

namespace Sodar

/-! ### Python string primitives -/

/-- The whitespace characters stripped by Python `str.strip()` / `str.split()`. -/
def pySpace (c : Char) : Bool :=
  c == ' ' || c == '\t' || c == '\n' || c == '\r' || c == '\x0b' || c == '\x0c'

/-- `str.strip()` on the character list: drop whitespace from both ends. -/
def stripList (l : List Char) : List Char :=
  ((l.dropWhile pySpace).reverse.dropWhile pySpace).reverse

/-- Python `str.strip()`. -/
def pyStrip (s : String) : String :=
  ⟨stripList s.data⟩

/-- Worker for no-argument `str.split()`: maximal runs of non-whitespace. -/
def wordsAux (acc : List Char) : List Char → List (List Char)
  | [] => if acc.isEmpty then [] else [acc.reverse]
  | c :: cs =>
    if pySpace c then
      (if acc.isEmpty then wordsAux [] cs else acc.reverse :: wordsAux [] cs)
    else wordsAux (c :: acc) cs

/-- Python `str.split()` with no separator: whitespace runs, no empty chunks. -/
def pySplitWs (s : String) : List String :=
  (wordsAux [] s.data).map fun l => ⟨l⟩

/-- Prefix test on character lists (matches on the pattern first, so that
`listPre [] t` reduces definitionally). -/
def listPre : List Char → List Char → Bool
  | [], _ => true
  | _ :: _, [] => false
  | a :: as, b :: bs => a == b && listPre as bs

/-- Python `str.startswith(p)`. -/
def pyStartswith (s p : String) : Bool :=
  listPre p.data s.data

/-- Worker for `str.split(sep)` with a non-empty separator.  The `Nat` is
fuel, always instantiated to the length of the list being split, which a
step-count argument shows is never exhausted; it only serves to make the
recursion structural so that the kernel can evaluate the function. -/
def splitOnAux (sep : List Char) : Nat → List Char → List Char → List (List Char)
  | _, [], cur => [cur.reverse]
  | 0, l, cur => [cur.reverse ++ l]
  | f + 1, c :: cs, cur =>
    if listPre sep (c :: cs) then
      cur.reverse :: splitOnAux sep f (cs.drop (sep.length - 1)) []
    else splitOnAux sep f cs (c :: cur)

/-- Python `str.split(sep)` for non-empty `sep`: split on every occurrence,
keeping empty chunks (the source never calls it with an empty separator). -/
def pySplitOn (s sep : String) : List String :=
  if sep.data.isEmpty then [s]
  else (splitOnAux sep.data s.data.length s.data []).map fun l => ⟨l⟩

/-- ASCII digit test. -/
def pyDigit (c : Char) : Bool :=
  c == '0' || c == '1' || c == '2' || c == '3' || c == '4' ||
  c == '5' || c == '6' || c == '7' || c == '8' || c == '9'

/-- Value of a non-empty all-digit character list. -/
def digitsVal (ds : List Char) : Option Nat :=
  if ds.isEmpty then none
  else if ds.all pyDigit then
    some (ds.foldl (fun n c => n * 10 + (c.toNat - '0'.toNat)) 0)
  else none

/-- Python `int(s)`: strip whitespace, optional sign, one or more digits;
`none` models the `ValueError` raised on any other shape. -/
def pyInt (s : String) : Option Int :=
  match stripList s.data with
  | '-' :: ds => (digitsVal ds).map fun n => -(n : Int)
  | '+' :: ds => (digitsVal ds).map fun n => (n : Int)
  | ds => (digitsVal ds).map fun n => (n : Int)

/-- Python slice `s[:n]`. -/
def pyTake (s : String) (n : Nat) : String :=
  ⟨s.data.take n⟩

/-- Python slice `s[a:b]`. -/
def pySlice (s : String) (a b : Nat) : String :=
  ⟨(s.data.take b).drop a⟩

/-- Python slice `s[-n:]`: the last `n` characters (all of them if shorter). -/
def pyTakeLast (s : String) (n : Nat) : String :=
  ⟨s.data.drop (s.data.length - n)⟩

/-- Python slice `l[-n:]` on lists. -/
def pyTakeLastList (l : List α) (n : Nat) : List α :=
  l.drop (l.length - n)

/-! ### The exception model

One constructor per `raise` site of the source (each carrying the values the
corresponding message formats), plus the built-in Python exceptions the source
can raise implicitly.  `sampleSecRange` carries `sample_sec` because the
source formats that variable into the message (line 188), even though the
tested value is `start_sec` (line 187).  `attributeError` models the
`AttributeError` raised by `segment0['bin_count'].bin_count` at lines 217-219
of the source, where a `.` stands where a `,` was intended. -/

inductive Err where
  | indexError
  | stopIteration
  | zeroDivisionError
  | valueError (s : String)
  | nameError (s : String)
  | attributeError (s : String)
  | fileFormat (s : String)
  | dirFileYear (d f : String)
  | dirFileMonth (d f : String)
  | dirStartYear (d m : String)
  | dirStartMonth (d m : String)
  | fileStartDay (d s : String)
  | instrumentType (s : String)
  | fileExtension (s : String)
  | startYearRange (n : Int)
  | startMonthRange (n : Int)
  | startDayRange (n : Int)
  | startHourRange (n : Int)
  | startMinRange (n : Int)
  | startSecRange (n : Int)
  | mainDataMisplaced
  | firstVariableNotZ
  | errorCodeMisplaced
  | sampleHourRange (n : Int)
  | sampleMinRange (n : Int)
  | sampleSecRange (n : Int)
  | timestampMismatch (fileStart sampleStart : Int) (index : Nat) (intervalSeconds : Int)
  | variablesMismatch (fileVars sampleVars : List String)
  | unevenElevation (lo hi : String) (binHeight : Int)
  | overflowError
  deriving DecidableEq

/-- Python `l[i]` on a list: `IndexError` out of range. -/
def pyIdxE (l : List α) (i : Nat) : Except Err α :=
  match l.get? i with
  | some a => .ok a
  | none => .error .indexError

/-- Python `l[-1]`: last element, `IndexError` when empty. -/
def pyLastE (l : List α) : Except Err α :=
  match l.getLast? with
  | some a => .ok a
  | none => .error .indexError

/-- Python `s[i]` character indexing. -/
def pyCharAt (s : String) (i : Nat) : Except Err Char :=
  match s.data.get? i with
  | some c => .ok c
  | none => .error .indexError

/-- Python 2-tuple unpacking `a, b = l`: `ValueError` unless exactly two. -/
def pyUnpack2 (l : List α) : Except Err (α × α) :=
  match l with
  | [a, b] => .ok (a, b)
  | _ => .error (.valueError "unpack2")

/-- Python 3-tuple unpacking `a, b, c = l`: `ValueError` unless exactly three. -/
def pyUnpack3 (l : List α) : Except Err (α × α × α) :=
  match l with
  | [a, b, c] => .ok (a, b, c)
  | _ => .error (.valueError "unpack3")

/-- `int(s)` as an exception-raising computation. -/
def pyIntE (s : String) : Except Err Int :=
  match pyInt s with
  | some n => .ok n
  | none => .error (.valueError s)

/-- Python 2 integer division `a / b` (floor division), `ZeroDivisionError`
on zero. -/
def pyFloorDiv (a b : Int) : Except Err Int :=
  if b = 0 then .error .zeroDivisionError else .ok (a.fdiv b)

/-- Sequencing of exception-raising computations: run `x`; on success feed
the value to `f`, on exception propagate it. -/
def bindE (x : Except Err A) (f : A → Except Err B) : Except Err B :=
  match x with
  | .ok a => f a
  | .error e => .error e

/-- The iterator protocol `it.next()`: `StopIteration` when exhausted,
otherwise the next line and the rest. -/
def pyNext (l : List String) : Except Err (String × List String) :=
  match l with
  | [] => .error .stopIteration
  | x :: xs => .ok (x, xs)

/-! ### `datetime` and `timedelta` -/

/-- Gregorian leap year. -/
def isLeap (y : Int) : Bool :=
  y % 4 == 0 && (y % 100 != 0 || y % 400 == 0)

/-- Days in a month of the proleptic Gregorian calendar. -/
def daysInMonth (y m : Int) : Int :=
  if m = 2 then (if isLeap y then 29 else 28)
  else if m = 4 ∨ m = 6 ∨ m = 9 ∨ m = 11 then 30
  else 31

/-- Days since 1970-01-01 of a civil date (standard days-from-civil formula). -/
def daysFromCivil (y m d : Int) : Int :=
  let yy := if m ≤ 2 then y - 1 else y
  let era := (if 0 ≤ yy then yy else yy - 399).fdiv 400
  let yoe := yy - era * 400
  let doy := (153 * (if 2 < m then m - 3 else m + 9) + 2).fdiv 5 + d - 1
  let doe := yoe * 365 + yoe.fdiv 4 - yoe.fdiv 100 + doy
  era * 146097 + doe - 719468

/-- `datetime(y, mo, d, h, mi, s)`: validates each component exactly as the
constructor does (`ValueError` otherwise) and returns the timestamp as seconds
since the epoch — an injective image of the datetime, so that datetime
equality and `datetime + int * timedelta` arithmetic are preserved. -/
def mkDatetime (y mo d h mi s : Int) : Except Err Int :=
  if 1 ≤ y ∧ y ≤ 9999 ∧ 1 ≤ mo ∧ mo ≤ 12 ∧ 1 ≤ d ∧ d ≤ daysInMonth y mo ∧
      0 ≤ h ∧ h ≤ 23 ∧ 0 ≤ mi ∧ mi ≤ 59 ∧ 0 ≤ s ∧ s ≤ 59 then
    .ok (daysFromCivil y mo d * 86400 + h * 3600 + mi * 60 + s)
  else
    .error (.valueError "datetime")

/-- `timedelta(...).seconds`: the seconds-within-day part of a normalized
`timedelta` whose total length in seconds is `t`. -/
def tdSeconds (t : Int) : Int :=
  t % 86400

/-- A `timedelta` result (construction from hour/minute/second components, or
`int * timedelta`) whose total length in seconds is `t`: the normalized days
component `t.fdiv 86400` must have magnitude at most 999999999, else the
operation raises an `OverflowError` (which carries none of the parse
values). -/
def mkTimedelta (t : Int) : Except Err Int :=
  if -999999999 ≤ t.fdiv 86400 ∧ t.fdiv 86400 ≤ 999999999 then .ok t
  else .error .overflowError

/-- `datetime + timedelta`: the shifted timestamp, unless it leaves
`[datetime.min, datetime.max]` (midnight of year 1 through the last second of
year 9999 at this embedding's one-second resolution), in which case the
addition raises an `OverflowError`. -/
def dtAddTd (stamp td : Int) : Except Err Int :=
  if daysFromCivil 1 1 1 * 86400 ≤ stamp + td ∧
      stamp + td ≤ daysFromCivil 9999 12 31 * 86400 + 86399 then .ok (stamp + td)
  else .error .overflowError

/-! ### The segmenter (`segment`, source lines 17-31) -/

/-- Worker for `segment`: `acc` is the list of closed segments, `cur` the
segment currently being filled (the Python code aliases `cur` as the last
element of the accumulator; here it is appended on close instead, and the
final `segments.pop()` of an empty trailing segment corresponds to not
appending an empty `cur` at the end). -/
def segmentGo : List String → List (List String) → List String → List (List String)
  | [], acc, cur => if cur.isEmpty then acc else acc ++ [cur]
  | l :: ls, acc, cur =>
    if pyStrip l ≠ "" then segmentGo ls acc (cur ++ [pyStrip l])
    else if ¬ cur.isEmpty then segmentGo ls (acc ++ [cur]) []
    else segmentGo ls acc cur

/-- `segment(lines)`: divide a main data file into blank-line-delimited
segments of stripped non-empty lines. -/
def segment (lines : List String) : List (List String) :=
  segmentGo lines [] []

/-! ### Data model -/

/-- Result of `parse0` (the source's `segment0` dict): the header. -/
structure Header where
  start_stamp : Int
  file_count : Int
  comment_count : Int
  variable_count : Int
  bin_count : Int
  deriving DecidableEq

/-- Result of `parse1` (the source's `segment1` dict): the site constants. -/
structure SiteConstants where
  angle : Int
  elevation : Int
  height : Int
  vars : List String
  deriving DecidableEq

/-- Result of `_parse2` (the source's `segment2` dict): the grid.  The
`sample_interval` timedelta is stored as its total length in seconds, which
preserves timedelta equality. -/
structure Grid where
  sample_interval : Int
  min_elevation : Int
  max_elevation : Int
  bin_height : Int
  bin_count : Int
  deriving DecidableEq

/-! ### String literals of the source -/

def formatTag : String := "FORMAT-1"
def instrumentTag : String := "SFAS"
def extensionTag : String := "mnd"
def hashMark : String := "#"
def pref1 : String := "antenna azimuth angle [deg] : "
def pref2 : String := "height above ground [m]     : "
def pref3 : String := "height above sea level [m]  : "
def mainDataTag : String := "Main Data"
def errorCodeTag : String := "error code #"
def sepDash : String := "-"
def sepColon : String := ":"
def sepHash : String := " # "
def sepSlash : String := "/"
def zName : String := "z"
def errorName : String := "error"

/-! ### `parse0` (source lines 37-110) -/

/-- The values `parse0` has in scope after its range checks (source line 100):
the converted numbers and the filename's 7th character. -/
structure Parse0Pre where
  start_year : Int
  start_month : Int
  start_day : Int
  start_hour : Int
  start_min : Int
  start_sec : Int
  file_count : Int
  comment_count : Int
  variable_count : Int
  bin_count : Int
  file_extra : Char
  deriving DecidableEq

/-- Source lines 40-100 of `parse0`: line parsing, path-derived fields, the
string matches, the number conversions and the range checks, in source
order. -/
def parse0Pre (seg : List String) (mnd : String) : Except Err Parse0Pre :=
  bindE (pyIdxE seg 0) fun file_format =>
  bindE (pyIdxE seg 1) fun l1 =>
  bindE (pyUnpack3 (pySplitWs l1)) fun (start_date, start_time, file_count) =>
  bindE (pyUnpack3 (pySplitOn start_date sepDash)) fun (start_year, start_month, start_day) =>
  bindE (pyUnpack3 (pySplitOn start_time sepColon)) fun (start_hour, start_min, start_sec) =>
  bindE (pyIdxE seg 2) fun instrument_type =>
  bindE (pyIdxE seg 3) fun l3 =>
  bindE (pyUnpack3 (pySplitWs l3)) fun (comment_count, variable_count, bin_count) =>
  bindE (pyUnpack2 (pyTakeLastList (pySplitOn mnd sepSlash) 2)) fun (mnd_dir, mnd_file) =>
  let dir_year := pyTake mnd_dir 4
  let dir_month := pyTakeLast mnd_dir 2
  let file_year := pyTake mnd_file 2
  let file_month := pySlice mnd_file 2 4
  let file_day := pySlice mnd_file 4 6
  bindE (pyCharAt mnd_file 6) fun file_extra =>
  let file_extension := pyTakeLast mnd_file 3
  if file_format ≠ formatTag then .error (.fileFormat file_format)
  else if pyTakeLast dir_year 2 ≠ file_year then .error (.dirFileYear dir_year file_year)
  else if dir_month ≠ file_month then .error (.dirFileMonth dir_month file_month)
  else if dir_year ≠ start_year then .error (.dirStartYear dir_year start_month)
  else if dir_month ≠ start_month then .error (.dirStartMonth dir_month start_month)
  else if file_day ≠ start_day then .error (.fileStartDay file_day start_day)
  else if instrument_type ≠ instrumentTag then .error (.instrumentType instrument_type)
  else if file_extension ≠ extensionTag then .error (.fileExtension file_extension)
  else
  bindE (pyIntE start_year) fun start_year =>
  bindE (pyIntE start_month) fun start_month =>
  bindE (pyIntE start_day) fun start_day =>
  bindE (pyIntE start_hour) fun start_hour =>
  bindE (pyIntE start_min) fun start_min =>
  bindE (pyIntE start_sec) fun start_sec =>
  bindE (pyIntE file_count) fun file_count =>
  bindE (pyIntE comment_count) fun comment_count =>
  bindE (pyIntE variable_count) fun variable_count =>
  bindE (pyIntE bin_count) fun bin_count =>
  if ¬ (2008 < start_year ∧ start_year < 2014) then .error (.startYearRange start_year)
  else if ¬ (0 < start_month ∧ start_month < 13) then .error (.startMonthRange start_month)
  else if ¬ (0 < start_day ∧ start_day < 32) then .error (.startDayRange start_day)
  else if ¬ (0 ≤ start_hour ∧ start_hour < 25) then .error (.startHourRange start_hour)
  else if ¬ (0 ≤ start_min ∧ start_min < 61) then .error (.startMinRange start_min)
  else if ¬ (0 ≤ start_sec ∧ start_sec < 61) then .error (.startSecRange start_sec)
  else .ok ⟨start_year, start_month, start_day, start_hour, start_min, start_sec,
            file_count, comment_count, variable_count, bin_count, file_extra⟩

/-- `parse0(segment, mnd, augmented_mnds)`.  The boolean is true exactly when
the source appends `mnd` to `augmented_mnds` (line 102-103): reached only
after all checks up to line 100 pass, and before the `datetime` constructor
in the `return` statement (line 105) runs — so the append survives a
`ValueError` raised by `datetime`. -/
def parse0 (seg : List String) (mnd : String) : Except Err Header × Bool :=
  match parse0Pre seg mnd with
  | .error e => (.error e, false)
  | .ok p =>
    let augments := p.file_extra ≠ '.'
    match mkDatetime p.start_year p.start_month p.start_day
        p.start_hour p.start_min p.start_sec with
    | .error e => (.error e, augments)
    | .ok stamp =>
      (.ok ⟨stamp, p.file_count, p.comment_count, p.variable_count, p.bin_count⟩,
       augments)

/-! ### `parse1` (source lines 113-160)

The source walks `segment` through the iterator protocol (`isegment.next()`,
raising `StopIteration` when exhausted); this is modelled by passing the
current line and the list of remaining lines. -/

/-- `angle` / `elevation` / `height` as Python local variables: `none` while
unassigned (reading an unassigned one at the `return` raises a name error). -/
structure ConstState where
  angle : Option Int
  elevation : Option Int
  height : Option Int
  deriving DecidableEq

/-- A `while line.startswith('#'): line = isegment.next()` loop. -/
def skipComments (line : String) (rest : List String) : Except Err (String × List String) :=
  if pyStartswith line hashMark then
    match rest with
    | [] => .error .stopIteration
    | l :: r => skipComments l r
  else .ok (line, rest)

/-- Body of the file-wide-constants loop (source lines 124-129): assign the
constant named by the line's prefix, if any, via `int(line.split()[-1])`. -/
def constUpdate (cs : ConstState) (line : String) : Except Err ConstState :=
  if pyStartswith line pref1 then
    bindE (pyLastE (pySplitWs line)) fun t =>
    bindE (pyIntE t) fun n => .ok { cs with angle := some n }
  else if pyStartswith line pref2 then
    bindE (pyLastE (pySplitWs line)) fun t =>
    bindE (pyIntE t) fun n => .ok { cs with elevation := some n }
  else if pyStartswith line pref3 then
    bindE (pyLastE (pySplitWs line)) fun t =>
    bindE (pyIntE t) fun n => .ok { cs with height := some n }
  else .ok cs

/-- The `while not line.startswith('#')` constants loop (lines 123-130):
update, then fetch the next line. -/
def constLoop (cs : ConstState) (line : String) (rest : List String) :
    Except Err (ConstState × String × List String) :=
  if pyStartswith line hashMark then .ok (cs, line, rest)
  else
    match constUpdate cs line with
    | .error e => .error e
    | .ok cs' =>
      match rest with
      | [] => .error .stopIteration
      | l :: r => constLoop cs' l r

/-- The variable-name loop (lines 143-146): `count` times, take the name after
`' # '` and fetch the next line. -/
def varLoop (vars : List String) (line : String) (rest : List String) :
    Nat → Except Err (List String × String × List String)
  | 0 => .ok (vars, line, rest)
  | n + 1 =>
    match pyIdxE (pySplitOn line sepHash) 1 with
    | .error e => .error e
    | .ok nm =>
      match rest with
      | [] => .error .stopIteration
      | l :: r => varLoop (vars ++ [nm]) l r n

/-- `parse1(segment, mnd, segment0)`. -/
def parse1 (seg : List String) (_mnd : String) (segment0 : Header) :
    Except Err SiteConstants :=
  bindE (pyNext seg) fun (line, rest) =>
  bindE (skipComments line rest) fun (line, rest) =>
  bindE (constLoop ⟨none, none, none⟩ line rest) fun (cs, line, rest) =>
  bindE (skipComments line rest) fun (line, rest) =>
  if ¬ pyStartswith line mainDataTag then .error .mainDataMisplaced
  else
  bindE (pyNext rest) fun (line, rest) =>
  bindE (skipComments line rest) fun (line, rest) =>
  bindE (varLoop [] line rest segment0.variable_count.toNat) fun (vars, line, rest) =>
  bindE (pyIdxE vars 0) fun v0 =>
  if v0 ≠ zName then .error .firstVariableNotZ
  else if ¬ pyStartswith line errorCodeTag then .error .errorCodeMisplaced
  else
  let vars := vars ++ [errorName]
  bindE (pyNext rest) fun _ =>
  match cs.angle, cs.elevation, cs.height with
  | some a, some e, some h => .ok ⟨a, e, h, vars⟩
  | none, _, _ => .error (.nameError "angle")
  | some _, none, _ => .error (.nameError "elevation")
  | some _, some _, none => .error (.nameError "height")

/-! ### `_parse2` (source lines 163-231) -/

/-- The values `_parse2` computes from line 0 of a data segment (source lines
166-192): the sample's start timestamp and the sample interval as a timedelta
(total seconds) — after the component range checks, whose third branch tests
`start_sec` but reports `sample_sec` (source lines 187-188). -/
structure Stamp2 where
  start_stamp : Int
  sample_interval : Int
  deriving DecidableEq

/-- Source lines 166-192 of `_parse2`. -/
def parseStamp (seg : List String) : Except Err Stamp2 :=
  bindE (pyIdxE seg 0) fun l0 =>
  bindE (pyUnpack3 (pySplitWs l0)) fun (start_date, start_time, sample_interval) =>
  bindE (pyUnpack3 (pySplitOn start_date sepDash)) fun (start_year, start_month, start_day) =>
  bindE (pyUnpack3 (pySplitOn start_time sepColon)) fun (start_hour, start_min, start_sec) =>
  bindE (pyUnpack3 (pySplitOn sample_interval sepColon)) fun (sample_hour, sample_min, sample_sec) =>
  bindE (pyIntE start_year) fun start_year =>
  bindE (pyIntE start_month) fun start_month =>
  bindE (pyIntE start_day) fun start_day =>
  bindE (pyIntE start_hour) fun start_hour =>
  bindE (pyIntE start_min) fun start_min =>
  bindE (pyIntE start_sec) fun start_sec =>
  bindE (pyIntE sample_hour) fun sample_hour =>
  bindE (pyIntE sample_min) fun sample_min =>
  bindE (pyIntE sample_sec) fun sample_sec =>
  if ¬ (0 ≤ sample_hour ∧ sample_hour < 25) then .error (.sampleHourRange sample_hour)
  else if ¬ (0 ≤ sample_min ∧ sample_min < 61) then .error (.sampleMinRange sample_min)
  else if ¬ (0 ≤ start_sec ∧ start_sec < 61) then .error (.sampleSecRange sample_sec)
  else
  bindE (mkDatetime start_year start_month start_day start_hour start_min start_sec)
    fun start_stamp =>
  bindE (mkTimedelta (sample_hour * 3600 + sample_min * 60 + sample_sec))
    fun sample_interval =>
  .ok ⟨start_stamp, sample_interval⟩

/-- The adjacent-row uniformity loop of `_parse2` (source lines 221-224):
`int(next[0]) - int(prev[0])` must equal `bin_height` for every adjacent pair
(the subtrahend is evaluated first, as in the source expression). -/
def checkPairs (bin_height : Int) : List (List String) → Except Err Unit
  | a :: b :: rest =>
    (match pyIdxE b 0 with
     | .error e => .error e
     | .ok tb =>
       match pyIntE tb with
       | .error e => .error e
       | .ok nb =>
         match pyIdxE a 0 with
         | .error e => .error e
         | .ok ta =>
           match pyIntE ta with
           | .error e => .error e
           | .ok na =>
             if nb - na ≠ bin_height then .error (.unevenElevation ta tb bin_height)
             else checkPairs bin_height (b :: rest))
  | _ => .ok ()

/-- `_parse2(index, segment, mnd, segment0, segment1)`. -/
def _parse2 (index : Nat) (seg : List String) (_mnd : String)
    (segment0 : Header) (segment1 : SiteConstants) : Except Err Grid :=
  bindE (parseStamp seg) fun st2 =>
  bindE (mkTimedelta ((index : Int) * st2.sample_interval)) fun prod =>
  bindE (dtAddTd segment0.start_stamp prod) fun expected =>
  if st2.start_stamp ≠ expected then
    .error (.timestampMismatch segment0.start_stamp st2.start_stamp index
              (tdSeconds st2.sample_interval))
  else
  bindE (pyIdxE seg 1) fun l1 =>
  let vars := (pySplitWs l1).drop 1
  if vars ≠ segment1.vars then .error (.variablesMismatch segment1.vars vars)
  else
  let data := (seg.drop 2).map pySplitWs
  bindE (pyIdxE data 0) fun r0 =>
  bindE (pyIdxE r0 0) fun t0 =>
  bindE (pyIntE t0) fun min_elevation =>
  bindE (pyLastE data) fun rl =>
  bindE (pyIdxE rl 0) fun tl =>
  bindE (pyIntE tl) fun max_elevation =>
  let bin_count : Int := data.length
  if bin_count ≠ segment0.bin_count then
    .error (.attributeError "int object has no attribute bin_count")
  else
  bindE (pyFloorDiv (max_elevation - min_elevation) (bin_count - 1)) fun bin_height =>
  bindE (checkPairs bin_height data) fun _ =>
  .ok ⟨st2.sample_interval, min_elevation, max_elevation, bin_height, bin_count⟩

/-! ### `parse2` (source lines 234-244) -/

/-- The comparison loop of `parse2` over `segments[3:]` (indices starting at
1): parse each later sample, and on the first whose grid differs from the
canonical `segment2`, record `(index, mnd)` and break — nothing after the
break is parsed. -/
def parse2Aux (mnd : String) (segment0 : Header) (segment1 : SiteConstants)
    (segment2 : Grid) : List (List String) → Nat → Except Err (List (Nat × String))
  | [], _ => .ok []
  | seg :: rest, idx =>
    match _parse2 idx seg mnd segment0 segment1 with
    | .error e => .error e
    | .ok segmentx =>
      if segmentx ≠ segment2 then .ok [(idx, mnd)]
      else parse2Aux mnd segment0 segment1 segment2 rest (idx + 1)

/-- `parse2(segments, mnd, segment0, segment1, inconsistent_segments)`: the
canonical grid of sample 0 plus the entries appended to
`inconsistent_segments`. -/
def parse2 (segments : List (List String)) (mnd : String) (segment0 : Header)
    (segment1 : SiteConstants) : Except Err (Grid × List (Nat × String)) :=
  bindE (pyIdxE segments 2) fun seg2lines =>
  bindE (_parse2 0 seg2lines mnd segment0 segment1) fun segment2 =>
  bindE (parse2Aux mnd segment0 segment1 segment2 (segments.drop 3) 1) fun inc =>
  .ok (segment2, inc)

/-! ### `main` (source lines 257-320): per-file validation and the
process-wide collections -/

/-- The process-wide state of `main`: the six anomaly collections and the
rolling previous-file values (`prev_mnd`, `prev_segment0`, `prev_segment1`,
`prev_segment2`), all `None`/empty initially. -/
structure St where
  irregular_segments : List (String × Nat)
  insufficient_segments : List String
  inconsistent_segments : List (Nat × String)
  augmented_mnds : List String
  incongruent_mnds : List (String × Grid)
  exceptional_mnds : List String
  prev_mnd : Option String
  prev_segment0 : Option Header
  prev_segment1 : Option SiteConstants
  prev_segment2 : Option Grid
  deriving DecidableEq

/-- The initial state of a run. -/
def initSt : St :=
  ⟨[], [], [], [], [], [], none, none, none, none⟩

/-- The fallible part of one file's `else` branch (source lines 305-307):
`parse0`, `parse1`, `parse2`.  Returns the outcome together with the entries
appended to the mutable collectors before any exception: the
augmented-filename flag from `parse0` and the inconsistent-sample entries
from `parse2` (the latter are only ever appended immediately before `parse2`
returns, so they are empty whenever the outcome is an error). -/
def validateBody (segments : List (List String)) (mnd : String) :
    Except Err (Header × SiteConstants × Grid) × Bool × List (Nat × String) :=
  match pyIdxE segments 0 with
  | .error e => (.error e, false, [])
  | .ok seg0 =>
    match parse0 seg0 mnd with
    | (.error e, aug) => (.error e, aug, [])
    | (.ok segment0, aug) =>
      match pyIdxE segments 1 with
      | .error e => (.error e, aug, [])
      | .ok seg1 =>
        match parse1 seg1 mnd segment0 with
        | .error e => (.error e, aug, [])
        | .ok segment1 =>
          match parse2 segments mnd segment0 segment1 with
          | .error e => (.error e, aug, [])
          | .ok (segment2, inc) => (.ok (segment0, segment1, segment2), aug, inc)

/-- One iteration of `main`'s file loop (source lines 296-320): segment the
file, branch on the segment count, run the parsers, do the rolling-grid
congruity bookkeeping, and route any exception to `exceptional_mnds`. -/
def processFile (st : St) (mnd : String) (lines : List String) : St :=
  let segments := segment lines
  if segments.length ≠ 50 then
    { st with irregular_segments := st.irregular_segments ++ [(mnd, segments.length)] }
  else if segments.length < 3 then
    { st with insufficient_segments := st.insufficient_segments ++ [mnd] }
  else
    match validateBody segments mnd with
    | (.error _, aug, inc) =>
      { st with
        augmented_mnds := st.augmented_mnds ++ (if aug then [mnd] else []),
        inconsistent_segments := st.inconsistent_segments ++ inc,
        exceptional_mnds := st.exceptional_mnds ++ [mnd] }
    | (.ok (segment0, segment1, segment2), aug, inc) =>
      { st with
        augmented_mnds := st.augmented_mnds ++ (if aug then [mnd] else []),
        inconsistent_segments := st.inconsistent_segments ++ inc,
        incongruent_mnds := st.incongruent_mnds ++
          (match st.prev_mnd with
           | some _ => if some segment2 ≠ st.prev_segment2 then [(mnd, segment2)] else []
           | none => [(mnd, segment2)]),
        prev_mnd := some mnd,
        prev_segment0 := some segment0,
        prev_segment1 := some segment1,
        prev_segment2 := some segment2 }

/-- A whole run of `main` over an ordered corpus of `(path, raw lines)`
files. -/
def runFold (st : St) (corpus : List (String × List String)) : St :=
  corpus.foldl (fun s f => processFile s f.1 f.2) st

/-- The grid a file contributes when it validates fully successfully
(`none` when it is irregular, insufficient or exceptional). -/
def fileGrid (f : String × List String) : Option Grid :=
  let segments := segment f.2
  if segments.length ≠ 50 then none
  else if segments.length < 3 then none
  else
    match validateBody segments f.1 with
    | (.ok (_, _, g), _, _) => some g
    | (.error _, _, _) => none

/-! ### Corpus relation for the site-constants noninterference claim

Two corpora are related when they are identical except in the integer values
of the three labeled constant lines of the constants segment (segment 1). -/

/-- `v` is a string Python's `int` accepts (optionally whitespace-padded sign
and digits) — the shape of the value part of a labeled constant line. -/
def intValStr (v : String) : Bool :=
  (pyInt v).isSome &&
    v.data.all fun c => pySpace c || c == '-' || c == '+' || pyDigit c

/-- Lines related by the noninterference relation: equal, or both a labeled
constant line with the same label and possibly different integer values. -/
def relLine (l l' : String) : Prop :=
  l = l' ∨ ∃ p v v', (p = pref1 ∨ p = pref2 ∨ p = pref3) ∧
    intValStr v ∧ intValStr v' ∧ l = p ++ v ∧ l' = p ++ v'

/-- Segment lists related by the noninterference relation: identical except
that the lines of segment 1 are pointwise `relLine`-related. -/
def relSegs (a b : List (List String)) : Prop :=
  match a, b with
  | s0 :: s1 :: rest, t0 :: t1 :: rest' =>
    s0 = t0 ∧ List.Forall₂ relLine s1 t1 ∧ rest = rest'
  | a, b => a = b

/-- Files related by the noninterference relation: same path, related
segmentations. -/
def relFile (f f' : String × List String) : Prop :=
  f.1 = f'.1 ∧ relSegs (segment f.2) (segment f'.2)

/-- Option-shape equality of the three constant locals: what the
`NameError`-vs-success behaviour of `parse1`'s return depends on. -/
def relCS (c c' : ConstState) : Prop :=
  c.angle.isSome = c'.angle.isSome ∧ c.elevation.isSome = c'.elevation.isSome ∧
  c.height.isSome = c'.height.isSome

/-- States equal on everything the reporting layer consumes — the six
anomaly collections and the rolling previous-file data other than the site
constants (whose numeric fields are exactly what the related corpora may
differ in). -/
def relSt (s s' : St) : Prop :=
  s.irregular_segments = s'.irregular_segments ∧
  s.insufficient_segments = s'.insufficient_segments ∧
  s.inconsistent_segments = s'.inconsistent_segments ∧
  s.augmented_mnds = s'.augmented_mnds ∧
  s.incongruent_mnds = s'.incongruent_mnds ∧
  s.exceptional_mnds = s'.exceptional_mnds ∧
  s.prev_mnd = s'.prev_mnd ∧
  s.prev_segment0 = s'.prev_segment0 ∧
  s.prev_segment2 = s'.prev_segment2

/-! ### Concrete inputs used by witnesses and counterexamples -/

/-- A well-formed header segment: start 2011-05-01 00:00:00, 1 file,
0 comments, 1 variable, 2 bins. -/
def seg0g : List String := ["FORMAT-1", "2011-05-01 00:00:00 1", "SFAS", "0 1 2"]

/-- A well-formed constants segment. -/
def seg1g : List String :=
  ["# c", "antenna azimuth angle [deg] : 45", "height above ground [m]     : 2",
   "height above sea level [m]  : 3", "# c", "Main Data", "1 # z", "error code # x", "y"]

/-- A well-formed sample segment (zero interval, so every sample index
carries the header's start timestamp). -/
def sampg : List String :=
  ["2011-05-01 00:00:00 00:00:00", "W z error", "100 1 2", "110 1 2"]

/-- A fully valid 50-segment file. -/
def goodLines : List String :=
  seg0g ++ [""] ++ seg1g ++ [""] ++ (List.replicate 48 (sampg ++ [""])).flatten

/-- A path consistent with `seg0g` whose 7th filename character is `.`. -/
def goodMnd : String := "201105/110501.mnd"

/-- The header `parse0` produces for `seg0g` (2011-05-01 is civil day 15095). -/
def goodHdr : Header := ⟨15095 * 86400, 1, 0, 1, 2⟩

/-- The site constants `parse1` produces for `seg1g`. -/
def goodConsts : SiteConstants := ⟨45, 2, 3, ["z", "error"]⟩

/-- The grid `_parse2` produces for `sampg`. -/
def goodGrid : Grid := ⟨0, 100, 110, 10, 2⟩

/-- A path consistent with `seg0g` whose 7th filename character is `x`. -/
def c1mnd : String := "201105/110501x.mnd"

/-- A constants segment that makes `parse1` fail (iterator exhaustion). -/
def c1seg1 : List String := ["x"]

/-- A 50-segment file whose header parses (appending the augmented entry)
and whose constants segment then fails. -/
def c1lines : List String :=
  seg0g ++ [""] ++ c1seg1 ++ [""] ++ (List.replicate 48 (sampg ++ [""])).flatten

/-- A file with 12 segments. -/
def c2lines : List String := (List.replicate 12 (["a"] ++ [""])).flatten

/-- A file with 49 segments. -/
def c9lines : List String := (List.replicate 49 (["a"] ++ [""])).flatten

/-- A sample segment whose start timestamp is one second late. -/
def c3seg : List String :=
  ["2011-05-01 00:00:01 00:00:00", "W z error", "100 1 2", "110 1 2"]

/-- A sample whose line-0 parse fully succeeds (its interval of 10^12 seconds
is within the timedelta bound of ±999999999 days) but whose shifted expected
timestamp at index 1 leaves the datetime range. -/
def c3oseg : List String :=
  ["2011-05-01 00:00:00 00:00:1000000000000"]

/-- A 50-segment file whose header parse fails before the augmentation check
(its header segment has a single line, so unpacking line 1 raises). -/
def c9elines : List String := (List.replicate 50 (["x"] ++ [""])).flatten

/-- A sample whose interval's second component is 61, all other components in
range, and whose start-timestamp second is 0. -/
def c6seg : List String :=
  ["2011-05-01 00:00:00 00:00:61", "W z error", "100 1 2", "110 1 2"]

/-- A sample whose start-timestamp second is 61 and whose interval's second
component is 5. -/
def c6seg2 : List String :=
  ["2011-05-01 00:00:61 00:00:05", "W z error", "100 1 2", "110 1 2"]

/-- A sample with 3 bin rows (against a header bin count of 2). -/
def c7seg : List String :=
  ["2011-05-01 00:00:00 00:00:00", "W z error", "100 1 2", "110 1 2", "120 1 2"]

/-- A constants segment missing the antenna-azimuth-angle line. -/
def c7seg1 : List String :=
  ["# c", "height above ground [m]     : 2", "height above sea level [m]  : 3",
   "# c", "Main Data", "1 # z", "error code # x", "y"]

/-- A sample that parses to a grid different from `goodGrid`. -/
def c5bad : List String :=
  ["2011-05-01 00:00:00 00:00:00", "W z error", "100 1 2", "120 1 2"]

/-- The grid of `c5bad`. -/
def c5badGrid : Grid := ⟨0, 100, 120, 20, 2⟩

/-- A segment no sample parse accepts. -/
def c5garbage : List String := ["garbage"]

/-- A two-segment file whose constants segment has angle 5. -/
def c10linesA : List String := ["a", "", "antenna azimuth angle [deg] : 5"]

/-- The same file with angle 6. -/
def c10linesB : List String := ["a", "", "antenna azimuth angle [deg] : 6"]

/-- An arbitrary path for files that are never parsed. -/
def anyMnd : String := "201105/110501x.mnd"

/-! ## Helper lemmas: computation rules for `bindE` -/

@[simp] theorem bindE_ok (a : A) (f : A → Except Err B) : bindE (.ok a) f = f a := rfl

@[simp] theorem bindE_error (e : Err) (f : A → Except Err B) :
    bindE (.error e) f = .error e := rfl

/-! ## Helper lemmas: the branches of `processFile` -/

theorem validateBody_error_inc {segs : List (List String)} {mnd : String} {e : Err}
    {aug : Bool} {inc : List (Nat × String)}
    (h : validateBody segs mnd = (.error e, aug, inc)) : inc = [] := by
  unfold validateBody at h
  repeat' split at h
  all_goals simp_all

theorem processFile_irregular (st : St) (mnd : String) (lines : List String)
    (h : (segment lines).length ≠ 50) :
    processFile st mnd lines =
      { st with irregular_segments :=
          st.irregular_segments ++ [(mnd, (segment lines).length)] } := by
  unfold processFile
  simp [h]

theorem processFile_error (st : St) (mnd : String) (lines : List String)
    {e : Err} {aug : Bool} {inc : List (Nat × String)}
    (h50 : (segment lines).length = 50)
    (hv : validateBody (segment lines) mnd = (.error e, aug, inc)) :
    processFile st mnd lines =
      { st with
        augmented_mnds := st.augmented_mnds ++ (if aug then [mnd] else []),
        exceptional_mnds := st.exceptional_mnds ++ [mnd] } := by
  have hinc := validateBody_error_inc hv
  subst hinc
  unfold processFile
  simp [h50, hv]

theorem processFile_ok (st : St) (mnd : String) (lines : List String)
    {h0 : Header} {c : SiteConstants} {g : Grid} {aug : Bool}
    {inc : List (Nat × String)}
    (h50 : (segment lines).length = 50)
    (hv : validateBody (segment lines) mnd = (.ok (h0, c, g), aug, inc)) :
    processFile st mnd lines =
      { st with
        augmented_mnds := st.augmented_mnds ++ (if aug then [mnd] else []),
        inconsistent_segments := st.inconsistent_segments ++ inc,
        incongruent_mnds := st.incongruent_mnds ++
          (match st.prev_mnd with
           | some _ => if some g ≠ st.prev_segment2 then [(mnd, g)] else []
           | none => [(mnd, g)]),
        prev_mnd := some mnd,
        prev_segment0 := some h0,
        prev_segment1 := some c,
        prev_segment2 := some g } := by
  unfold processFile
  simp [h50, hv]

/-! ## Claim theorems -/

/-- C2: a file whose segment count is not 50 — including any count below 3 —
is recorded only in the irregular-segment-count collection, with its count:
every other collection and all rolling state are left unchanged (so it is
never parsed further and never recorded as insufficient); moreover no file
whatsoever is ever recorded in the insufficient-segments collection, the
`< 3` branch being unreachable behind the `≠ 50` branch of the same
conditional. -/
theorem claim_C2 :
    (∀ (st : St) (mnd : String) (lines : List String),
      (segment lines).length ≠ 50 →
      processFile st mnd lines =
        { st with irregular_segments :=
            st.irregular_segments ++ [(mnd, (segment lines).length)] }) ∧
    (∀ (st : St) (mnd : String) (lines : List String),
      (processFile st mnd lines).insufficient_segments = st.insufficient_segments) := by
  constructor
  · exact fun st mnd lines h => processFile_irregular st mnd lines h
  · intro st mnd lines
    by_cases h : (segment lines).length ≠ 50
    · rw [processFile_irregular st mnd lines h]
    · rw [not_ne_iff] at h
      unfold processFile
      simp only [h]
      split
      · simp_all
      · split
        · omega
        · split <;> rfl

/-- C2 witness: a concrete file with 12 segments is recorded as irregular
with count 12 and nothing else changes. -/
theorem claim_C2_witness :
    (segment c2lines).length ≠ 50 ∧
    processFile initSt anyMnd c2lines =
      { initSt with irregular_segments :=
          initSt.irregular_segments ++ [(anyMnd, (segment c2lines).length)] } :=
  ⟨by decide, claim_C2.1 initSt anyMnd c2lines (by decide)⟩

/-- C6 (documenting the code bug): the sample-interval range check does not
range-check the interval's second component: a sample whose interval is
`00:00:61` (second component 61, other components in range) passes the range
check and the entire sample parse, because the third range check tests the
sample's start-timestamp second (`start_sec`) instead of the interval's
second (`sample_sec`); conversely a sample whose start-timestamp second is
out of range fails that check with an error that reports the interval's
second component (here 5) rather than the tested value. -/
theorem claim_C6 :
    _parse2 0 c6seg anyMnd goodHdr goodConsts = .ok ⟨61, 100, 110, 10, 2⟩ ∧
    parseStamp c6seg2 = .error (.sampleSecRange 5) := by
  constructor
  · decide
  · decide

/-- C7 (documenting the code bug): a sample whose bin-row count (3) differs
from the header's bin count (2) does not fail with a structured error naming
the two counts: the source's raise statement evaluates
`segment0['bin_count'].bin_count` (a `.` where a `,` was intended), so the
failure is an `AttributeError` carrying neither count.  The other half of
the claim holds: a constants segment missing one of the three labeled
constant lines does fail (with the unbound-local error for that name). -/
theorem claim_C7 :
    _parse2 0 c7seg anyMnd goodHdr goodConsts =
      .error (.attributeError "int object has no attribute bin_count") ∧
    parse1 c7seg1 anyMnd goodHdr = .error (.nameError "angle") := by
  constructor
  · decide
  · decide

/-! ## Helper lemmas: invariants of the segmenter -/

theorem segmentGo_nonempty :
    ∀ (ls : List String) (acc : List (List String)) (cur : List String),
      (∀ s ∈ acc, s ≠ []) → ∀ s ∈ segmentGo ls acc cur, s ≠ [] := by
  intro ls
  induction ls with
  | nil =>
    intro acc cur hacc s hs
    unfold segmentGo at hs
    by_cases hc : cur.isEmpty
    · rw [if_pos hc] at hs
      exact hacc s hs
    · rw [if_neg hc] at hs
      rcases List.mem_append.1 hs with h | h
      · exact hacc s h
      · rw [List.mem_singleton] at h
        subst h
        intro hnil
        rw [hnil] at hc
        exact hc rfl
  | cons l ls ih =>
    intro acc cur hacc s hs
    unfold segmentGo at hs
    by_cases h1 : pyStrip l ≠ ""
    · rw [if_pos h1] at hs
      exact ih acc (cur ++ [pyStrip l]) hacc s hs
    · rw [if_neg h1] at hs
      by_cases h2 : ¬ cur.isEmpty
      · rw [if_pos h2] at hs
        refine ih (acc ++ [cur]) [] ?_ s hs
        intro s' hs'
        rcases List.mem_append.1 hs' with h | h
        · exact hacc s' h
        · rw [List.mem_singleton] at h
          subst h
          intro hnil
          rw [hnil] at h2
          exact h2 rfl
      · rw [if_neg h2] at hs
        exact ih acc cur hacc s hs

theorem segmentGo_nonblank :
    ∀ (ls : List String) (acc : List (List String)) (cur : List String),
      (∀ s ∈ acc, ∀ x ∈ s, x ≠ "") → (∀ x ∈ cur, x ≠ "") →
      ∀ s ∈ segmentGo ls acc cur, ∀ x ∈ s, x ≠ "" := by
  intro ls
  induction ls with
  | nil =>
    intro acc cur hacc hcur s hs
    unfold segmentGo at hs
    by_cases hc : cur.isEmpty
    · rw [if_pos hc] at hs
      exact hacc s hs
    · rw [if_neg hc] at hs
      rcases List.mem_append.1 hs with h | h
      · exact hacc s h
      · rw [List.mem_singleton] at h
        subst h
        exact hcur
  | cons l ls ih =>
    intro acc cur hacc hcur s hs
    unfold segmentGo at hs
    by_cases h1 : pyStrip l ≠ ""
    · rw [if_pos h1] at hs
      refine ih acc (cur ++ [pyStrip l]) hacc ?_ s hs
      intro x hx
      rcases List.mem_append.1 hx with h | h
      · exact hcur x h
      · rw [List.mem_singleton] at h
        subst h
        exact h1
    · rw [if_neg h1] at hs
      by_cases h2 : ¬ cur.isEmpty
      · rw [if_pos h2] at hs
        refine ih (acc ++ [cur]) [] ?_ (by simp) s hs
        intro s' hs'
        rcases List.mem_append.1 hs' with h | h
        · exact hacc s' h
        · rw [List.mem_singleton] at h
          subst h
          exact hcur
      · rw [if_neg h2] at hs
        exact ih acc cur hacc hcur s hs

theorem segmentGo_src :
    ∀ (ls : List String) (acc : List (List String)) (cur : List String)
      (s : List String) (x : String), s ∈ segmentGo ls acc cur → x ∈ s →
      (∃ s' ∈ acc, x ∈ s') ∨ x ∈ cur ∨ ∃ raw ∈ ls, x = pyStrip raw := by
  intro ls
  induction ls with
  | nil =>
    intro acc cur s x hs hx
    unfold segmentGo at hs
    by_cases hc : cur.isEmpty
    · rw [if_pos hc] at hs
      exact Or.inl ⟨s, hs, hx⟩
    · rw [if_neg hc] at hs
      rcases List.mem_append.1 hs with h | h
      · exact Or.inl ⟨s, h, hx⟩
      · rw [List.mem_singleton] at h
        subst h
        exact Or.inr (Or.inl hx)
  | cons l ls ih =>
    intro acc cur s x hs hx
    unfold segmentGo at hs
    by_cases h1 : pyStrip l ≠ ""
    · rw [if_pos h1] at hs
      rcases ih acc (cur ++ [pyStrip l]) s x hs hx with h | h | ⟨raw, hraw, hq⟩
      · exact Or.inl h
      · rcases List.mem_append.1 h with h' | h'
        · exact Or.inr (Or.inl h')
        · rw [List.mem_singleton] at h'
          exact Or.inr (Or.inr ⟨l, List.mem_cons_self l ls, h'⟩)
      · exact Or.inr (Or.inr ⟨raw, List.mem_cons_of_mem l hraw, hq⟩)
    · rw [if_neg h1] at hs
      by_cases h2 : ¬ cur.isEmpty
      · rw [if_pos h2] at hs
        rcases ih (acc ++ [cur]) [] s x hs hx with ⟨s', hs', hx'⟩ | h | ⟨raw, hraw, hq⟩
        · rcases List.mem_append.1 hs' with h' | h'
          · exact Or.inl ⟨s', h', hx'⟩
          · rw [List.mem_singleton] at h'
            subst h'
            exact Or.inr (Or.inl hx')
        · exact absurd h (List.not_mem_nil x)
        · exact Or.inr (Or.inr ⟨raw, List.mem_cons_of_mem l hraw, hq⟩)
      · rw [if_neg h2] at hs
        rcases ih acc cur s x hs hx with h | h | ⟨raw, hraw, hq⟩
        · exact Or.inl h
        · exact Or.inr (Or.inl h)
        · exact Or.inr (Or.inr ⟨raw, List.mem_cons_of_mem l hraw, hq⟩)

/-- C8: every segment produced by the segmenter is non-empty and consists of
non-empty lines that are whitespace-trimmed input lines — consecutive blank
lines never produce an empty segment and a trailing run of blank lines leaves
no trailing empty segment. -/
theorem claim_C8 :
    ∀ (lines : List String) (s : List String), s ∈ segment lines →
      s ≠ [] ∧ ∀ x ∈ s, x ≠ "" ∧ ∃ raw ∈ lines, x = pyStrip raw := by
  intro lines s hs
  refine ⟨segmentGo_nonempty lines [] [] (by simp) s hs, fun x hx => ⟨?_, ?_⟩⟩
  · exact segmentGo_nonblank lines [] [] (by simp) (by simp) s hs x hx
  · rcases segmentGo_src lines [] [] s x hs hx with ⟨s', hs', _⟩ | hx' | h
    · exact absurd hs' (List.not_mem_nil s')
    · exact absurd hx' (List.not_mem_nil x)
    · exact h

/-- C8 witness: a file with a padded line, consecutive blank lines, and a
trailing blank line segments into non-empty trimmed segments. -/
theorem claim_C8_witness :
    ["a"] ∈ segment [" a", "", "", "b", ""] ∧
    (["a"] ≠ [] ∧ ∀ x ∈ ["a"], x ≠ "" ∧ ∃ raw ∈ [" a", "", "", "b", ""], x = pyStrip raw) :=
  ⟨by decide, claim_C8 [" a", "", "", "b", ""] ["a"] (by decide)⟩

/-- C1 counterexample: a 50-segment file whose header parses fully (recording
its augmented filename) and whose constants segment then fails is recorded in
the exceptional collection — and the augmented-filename entry appended during
header parsing survives that failure, contradicting the claim that no partial
anomaly entries from a failed file are kept in any other collection. -/
theorem claim_C1_counterexample :
    (processFile initSt c1mnd c1lines).exceptional_mnds = [c1mnd] ∧
    (processFile initSt c1mnd c1lines).augmented_mnds = [c1mnd] := by
  constructor
  · decide
  · decide

/-- C1 as amended: when validation of a 50-segment file fails, the file is
recorded in the exceptional collection and nothing is kept in the irregular,
insufficient, inconsistent or incongruent collections nor in the rolling
previous-file state — but an augmented-filename entry appended during header
parsing does survive the failure; and the scan proceeds to the next file. -/
theorem claim_C1 :
    (∀ (st : St) (mnd : String) (lines : List String) (e : Err) (aug : Bool)
        (inc : List (Nat × String)),
      (segment lines).length = 50 →
      validateBody (segment lines) mnd = (.error e, aug, inc) →
      inc = [] ∧
      processFile st mnd lines =
        { st with
          augmented_mnds := st.augmented_mnds ++ (if aug then [mnd] else []),
          exceptional_mnds := st.exceptional_mnds ++ [mnd] }) ∧
    (∀ (st : St) (f : String × List String) (rest : List (String × List String)),
      runFold st (f :: rest) = runFold (processFile st f.1 f.2) rest) := by
  constructor
  · intro st mnd lines e aug inc h50 hv
    exact ⟨validateBody_error_inc hv, processFile_error st mnd lines h50 hv⟩
  · intro st f rest
    rfl

/-- C1 witness: the amended theorem applied to the concrete failing file. -/
theorem claim_C1_witness :
    ([] : List (Nat × String)) = [] ∧
    processFile initSt c1mnd c1lines =
      { initSt with
        augmented_mnds := initSt.augmented_mnds ++ (if true then [c1mnd] else []),
        exceptional_mnds := initSt.exceptional_mnds ++ [c1mnd] } :=
  claim_C1.1 initSt c1mnd c1lines .stopIteration true [] (by decide) (by decide)

/-! ## Helper lemmas: where the augmented-filename entry is recorded -/

theorem validateBody_aug (segs : List (List String)) (mnd : String)
    {s0seg : List String} (h0 : pyIdxE segs 0 = .ok s0seg) :
    (validateBody segs mnd).2.1 = (parse0 s0seg mnd).2 := by
  unfold validateBody
  rcases hp : parse0 s0seg mnd with ⟨res, aug⟩
  cases res with
  | error e => simp [h0, hp]
  | ok s0 =>
    simp only [h0, hp]
    repeat' split
    all_goals rfl

theorem processFile_augmented (st : St) (mnd : String) (lines : List String)
    (h50 : (segment lines).length = 50) :
    (processFile st mnd lines).augmented_mnds =
      st.augmented_mnds ++
        (if (validateBody (segment lines) mnd).2.1 then [mnd] else []) := by
  unfold processFile
  rcases hv : validateBody (segment lines) mnd with ⟨res, aug, inc⟩
  cases res <;> simp [h50, hv]

/-! ## Helper lemmas: the rolling-grid bookkeeping -/

theorem processFile_fileGrid_none (st : St) (mnd : String) (lines : List String)
    (h : fileGrid (mnd, lines) = none) :
    (processFile st mnd lines).prev_mnd = st.prev_mnd ∧
    (processFile st mnd lines).prev_segment2 = st.prev_segment2 ∧
    (processFile st mnd lines).incongruent_mnds = st.incongruent_mnds := by
  by_cases h50 : (segment lines).length ≠ 50
  · rw [processFile_irregular st mnd lines h50]
    exact ⟨rfl, rfl, rfl⟩
  · rw [not_ne_iff] at h50
    rcases hv : validateBody (segment lines) mnd with ⟨res, aug, inc⟩
    cases res with
    | error e =>
      rw [processFile_error st mnd lines h50 hv]
      exact ⟨rfl, rfl, rfl⟩
    | ok t =>
      exfalso
      rcases t with ⟨h0, c, g⟩
      unfold fileGrid at h
      simp [h50, hv] at h

theorem processFile_fileGrid_some (st : St) (mnd : String) (lines : List String)
    {g : Grid} (h : fileGrid (mnd, lines) = some g) :
    (processFile st mnd lines).prev_mnd = some mnd ∧
    (processFile st mnd lines).prev_segment2 = some g ∧
    (processFile st mnd lines).incongruent_mnds = st.incongruent_mnds ++
      (match st.prev_mnd with
       | some _ => if some g ≠ st.prev_segment2 then [(mnd, g)] else []
       | none => [(mnd, g)]) := by
  unfold fileGrid at h
  by_cases h50 : (segment lines).length ≠ 50
  · simp [h50] at h
  · rw [not_ne_iff] at h50
    rcases hv : validateBody (segment lines) mnd with ⟨res, aug, inc⟩
    cases res with
    | error e => simp [h50, hv] at h
    | ok t =>
      rcases t with ⟨h0, c, g'⟩
      have hg : g' = g := by simpa [h50, hv] using h
      subst hg
      rw [processFile_ok st mnd lines h50 hv]
      exact ⟨rfl, rfl, rfl⟩

theorem runFold_preserve (g : Grid) :
    ∀ (corpus : List (String × List String)) (st : St),
      (∀ f ∈ corpus, fileGrid f = none ∨ fileGrid f = some g) →
      st.prev_mnd.isSome = true → st.prev_segment2 = some g →
      (runFold st corpus).incongruent_mnds = st.incongruent_mnds ∧
      (runFold st corpus).prev_mnd.isSome = true ∧
      (runFold st corpus).prev_segment2 = some g := by
  intro corpus
  induction corpus with
  | nil => intro st h hm hg; exact ⟨rfl, hm, hg⟩
  | cons f rest ih =>
    intro st h hm hg
    have hrun : runFold st (f :: rest) = runFold (processFile st f.1 f.2) rest := rfl
    rw [hrun]
    rcases h f (List.mem_cons_self f rest) with hn | hs
    · obtain ⟨h1, h2, h3⟩ := processFile_fileGrid_none st f.1 f.2 hn
      obtain ⟨p1, p2, p3⟩ := ih (processFile st f.1 f.2)
        (fun f' hf' => h f' (List.mem_cons_of_mem f hf'))
        (by rw [h1]; exact hm) (by rw [h2]; exact hg)
      exact ⟨by rw [p1, h3], p2, p3⟩
    · obtain ⟨h1, h2, h3⟩ := processFile_fileGrid_some st f.1 f.2 hs
      cases hpm : st.prev_mnd with
      | none => rw [hpm] at hm; cases hm
      | some m =>
        rw [hpm] at h3
        simp only [hg] at h3
        rw [if_neg (fun hh => hh rfl)] at h3
        rw [List.append_nil] at h3
        obtain ⟨p1, p2, p3⟩ := ih (processFile st f.1 f.2)
          (fun f' hf' => h f' (List.mem_cons_of_mem f hf'))
          (by rw [h1]; rfl) h2
        exact ⟨by rw [p1, h3], p2, p3⟩

theorem runFold_seed (g : Grid) :
    ∀ (corpus : List (String × List String)) (st : St),
      (∀ f ∈ corpus, fileGrid f = none ∨ fileGrid f = some g) →
      st.prev_mnd = none →
      (runFold st corpus).incongruent_mnds = st.incongruent_mnds ++
        (match corpus.find? (fun f => (fileGrid f).isSome) with
         | some f => [(f.1, g)]
         | none => []) := by
  intro corpus
  induction corpus with
  | nil => intro st h hm; simp [runFold, List.find?]
  | cons f rest ih =>
    intro st h hm
    have hrun : runFold st (f :: rest) = runFold (processFile st f.1 f.2) rest := rfl
    rcases h f (List.mem_cons_self f rest) with hn | hs
    · have hfind : (f :: rest).find? (fun f => (fileGrid f).isSome) =
          rest.find? (fun f => (fileGrid f).isSome) := by
        rw [List.find?_cons_of_neg]
        simp [hn]
      obtain ⟨h1, h2, h3⟩ := processFile_fileGrid_none st f.1 f.2 hn
      rw [hrun, ih (processFile st f.1 f.2)
        (fun f' hf' => h f' (List.mem_cons_of_mem f hf')) (by rw [h1]; exact hm),
        h3, hfind]
    · have hfind : (f :: rest).find? (fun f => (fileGrid f).isSome) = some f := by
        rw [List.find?_cons_of_pos]
        simp [hs]
      obtain ⟨h1, h2, h3⟩ := processFile_fileGrid_some st f.1 f.2 hs
      simp only [hm] at h3
      obtain ⟨p1, p2, p3⟩ := runFold_preserve g rest (processFile st f.1 f.2)
        (fun f' hf' => h f' (List.mem_cons_of_mem f hf')) (by rw [h1]; rfl) h2
      rw [hrun, p1, h3, hfind]

/-! ## Helper lemmas: the comparison loop of `parse2` -/

theorem parse2Aux_all_ok (mnd : String) (s0 : Header) (s1 : SiteConstants) (g : Grid) :
    ∀ (samples : List (List String)) (i : Nat),
      (∀ (k : Nat) (seg : List String), samples.get? k = some seg →
        _parse2 (i + k) seg mnd s0 s1 = .ok g) →
      parse2Aux mnd s0 s1 g samples i = .ok [] := by
  intro samples
  induction samples with
  | nil => intro i h; rfl
  | cons seg rest ih =>
    intro i h
    have h0 := h 0 seg rfl
    rw [Nat.add_zero] at h0
    unfold parse2Aux
    simp only [h0]
    rw [if_neg (fun hh => hh rfl)]
    refine ih (i + 1) fun k s hk => ?_
    have := h (k + 1) s hk
    rwa [show i + (k + 1) = i + 1 + k by omega] at this

theorem parse2Aux_first_bad (mnd : String) (s0 : Header) (s1 : SiteConstants) (g : Grid) :
    ∀ (pre : List (List String)) (i : Nat) (bad : List String)
      (rest : List (List String)) (gb : Grid),
      (∀ (k : Nat) (seg : List String), pre.get? k = some seg →
        _parse2 (i + k) seg mnd s0 s1 = .ok g) →
      _parse2 (i + pre.length) bad mnd s0 s1 = .ok gb → gb ≠ g →
      parse2Aux mnd s0 s1 g (pre ++ bad :: rest) i = .ok [(i + pre.length, mnd)] := by
  intro pre
  induction pre with
  | nil =>
    intro i bad rest gb hpre hbad hne
    rw [List.length_nil, Nat.add_zero] at hbad
    unfold parse2Aux
    simp only [List.nil_append, hbad]
    rw [if_pos hne]
    simp
  | cons p pre ih =>
    intro i bad rest gb hpre hbad hne
    have h0 := hpre 0 p rfl
    rw [Nat.add_zero] at h0
    unfold parse2Aux
    simp only [List.cons_append, h0]
    rw [if_neg (fun hh => hh rfl)]
    have hres := ih (i + 1) bad rest gb
      (fun k s hk => by
        have := hpre (k + 1) s hk
        rwa [show i + (k + 1) = i + 1 + k by omega] at this)
      (by rwa [show i + 1 + pre.length = i + (p :: pre).length by simp; omega]) hne
    rw [hres]
    congr 2
    simp
    omega

/-- C4: the rolling last-known-good grid (`prev_segment2`) is updated only
by a fully successful file and left unchanged — along with the incongruent
collection — by any failing file; a successful file's grid is compared to
the rolling one, recording (path, grid) exactly when they differ or when no
prior successful file exists; hence a run from the initial state whose
successful files all share one grid records exactly one incongruent entry,
seeded at the first successful file (and none when no file succeeds). -/
theorem claim_C4 :
    (∀ (st : St) (mnd : String) (lines : List String),
      fileGrid (mnd, lines) = none →
      (processFile st mnd lines).prev_mnd = st.prev_mnd ∧
      (processFile st mnd lines).prev_segment2 = st.prev_segment2 ∧
      (processFile st mnd lines).incongruent_mnds = st.incongruent_mnds) ∧
    (∀ (st : St) (mnd : String) (lines : List String) (g : Grid),
      fileGrid (mnd, lines) = some g →
      (processFile st mnd lines).prev_mnd = some mnd ∧
      (processFile st mnd lines).prev_segment2 = some g ∧
      (processFile st mnd lines).incongruent_mnds = st.incongruent_mnds ++
        (match st.prev_mnd with
         | some _ => if some g ≠ st.prev_segment2 then [(mnd, g)] else []
         | none => [(mnd, g)])) ∧
    (∀ (corpus : List (String × List String)) (g : Grid),
      (∀ f ∈ corpus, fileGrid f = none ∨ fileGrid f = some g) →
      (runFold initSt corpus).incongruent_mnds =
        (match corpus.find? (fun f => (fileGrid f).isSome) with
         | some f => [(f.1, g)]
         | none => [])) := by
  refine ⟨fun st mnd lines h => processFile_fileGrid_none st mnd lines h,
          fun st mnd lines g h => processFile_fileGrid_some st mnd lines h,
          fun corpus g h => ?_⟩
  have hseed := runFold_seed g corpus initSt h rfl
  simpa using hseed

/-- C4 witness: a one-file corpus whose file validates fully gets exactly
the seeded incongruent entry at that file. -/
theorem claim_C4_witness :
    (runFold initSt [(goodMnd, goodLines)]).incongruent_mnds =
      (match [(goodMnd, goodLines)].find? (fun f => (fileGrid f).isSome) with
       | some f => [(f.1, goodGrid)]
       | none => []) :=
  claim_C4.2.2 [(goodMnd, goodLines)] goodGrid (by decide)

/-! ## Helper lemmas: the header's augmentation flag -/

theorem parse0_aug {seg : List String} {mnd : String} {p : Parse0Pre}
    (hp : parse0Pre seg mnd = .ok p) :
    (parse0 seg mnd).2 = decide (p.file_extra ≠ '.') := by
  unfold parse0
  simp only [hp]
  cases hmk : mkDatetime p.start_year p.start_month p.start_day
      p.start_hour p.start_min p.start_sec <;> simp [hmk]

theorem parse0_aug_error {seg : List String} {mnd : String} {e : Err}
    (hp : parse0Pre seg mnd = .error e) : (parse0 seg mnd).2 = false := by
  unfold parse0
  simp [hp]

/-- C9 counterexample: a file whose filename's 7th character is `x` but which
has 49 segments is recorded as irregular and never in the augmented-filename
collection — the recording is not independent of the file's other
classification. -/
theorem claim_C9_counterexample :
    pyCharAt "110501x.mnd" 6 = .ok 'x' ∧
    (processFile initSt c1mnd c9lines).augmented_mnds = [] ∧
    (processFile initSt c1mnd c9lines).irregular_segments = [(c1mnd, 49)] := by
  refine ⟨by decide, by decide, by decide⟩

/-- C9 as amended: the augmented-filename recording happens exactly for files
that reach the check at the end of header parsing — the file must have 50
segments and its header's string matches and range checks must pass; the
path is then recorded when the filename's 7th character is not `.` (and not
recorded when it is), the recording itself never fails, and it is kept
regardless of any later constants/sample failure.  A 50-segment file whose
header parse fails before reaching that check records nothing, as does a file
with any other segment count. -/
theorem claim_C9 :
    (∀ (st : St) (mnd : String) (lines : List String) (s0seg : List String)
        (p : Parse0Pre),
      (segment lines).length = 50 →
      pyIdxE (segment lines) 0 = .ok s0seg →
      parse0Pre s0seg mnd = .ok p →
      p.file_extra ≠ '.' →
      (processFile st mnd lines).augmented_mnds = st.augmented_mnds ++ [mnd]) ∧
    (∀ (st : St) (mnd : String) (lines : List String) (s0seg : List String)
        (p : Parse0Pre),
      (segment lines).length = 50 →
      pyIdxE (segment lines) 0 = .ok s0seg →
      parse0Pre s0seg mnd = .ok p →
      p.file_extra = '.' →
      (processFile st mnd lines).augmented_mnds = st.augmented_mnds) ∧
    (∀ (st : St) (mnd : String) (lines : List String) (s0seg : List String)
        (e : Err),
      (segment lines).length = 50 →
      pyIdxE (segment lines) 0 = .ok s0seg →
      parse0Pre s0seg mnd = .error e →
      (processFile st mnd lines).augmented_mnds = st.augmented_mnds) ∧
    (∀ (st : St) (mnd : String) (lines : List String),
      (segment lines).length ≠ 50 →
      (processFile st mnd lines).augmented_mnds = st.augmented_mnds) := by
  refine ⟨?_, ?_, ?_, ?_⟩
  · intro st mnd lines s0seg p h50 h0 hp hx
    rw [processFile_augmented st mnd lines h50, validateBody_aug _ _ h0, parse0_aug hp]
    simp [hx]
  · intro st mnd lines s0seg p h50 h0 hp hx
    rw [processFile_augmented st mnd lines h50, validateBody_aug _ _ h0, parse0_aug hp]
    simp [hx]
  · intro st mnd lines s0seg e h50 h0 hp
    rw [processFile_augmented st mnd lines h50, validateBody_aug _ _ h0,
      parse0_aug_error hp]
    simp
  · intro st mnd lines h
    rw [processFile_irregular st mnd lines h]

/-- C9 witness: the amended theorem applied to the concrete 50-segment file
with 7th filename character `x` (whose constants segment in fact fails
later, showing the entry survives), and to a concrete 50-segment file whose
header parse fails before the augmentation check (nothing recorded). -/
theorem claim_C9_witness :
    (processFile initSt c1mnd c1lines).augmented_mnds =
      initSt.augmented_mnds ++ [c1mnd] ∧
    (processFile initSt c1mnd c9elines).augmented_mnds = initSt.augmented_mnds :=
  ⟨claim_C9.1 initSt c1mnd c1lines seg0g ⟨2011, 5, 1, 0, 0, 0, 1, 0, 1, 2, 'x'⟩
     (by decide) (by decide) (by decide) (by decide),
   claim_C9.2.2.1 initSt c1mnd c9elines ["x"] .indexError
     (by decide) (by decide) (by decide)⟩

/-- C5: within a file, the grid of sample 0 (the canonical grid) is what
`parse2` returns, in both outcomes: when a later sample is the first whose
grid differs from the canonical one — all samples before it parsing to the
canonical grid — exactly the one entry (that sample's index, path) goes to
the inconsistent-samples collector and nothing after that sample is examined
(the segments behind it are arbitrary, even unparseable: the file is not
aborted); and when every later sample parses to the canonical grid, no entry
is recorded. -/
theorem claim_C5 :
    (∀ (a b seg2 : List String) (pre : List (List String)) (bad : List String)
        (rest : List (List String)) (mnd : String) (s0 : Header)
        (s1 : SiteConstants) (g gb : Grid),
      _parse2 0 seg2 mnd s0 s1 = .ok g →
      (∀ (k : Nat) (seg : List String), pre.get? k = some seg →
        _parse2 (k + 1) seg mnd s0 s1 = .ok g) →
      _parse2 (pre.length + 1) bad mnd s0 s1 = .ok gb →
      gb ≠ g →
      parse2 (a :: b :: seg2 :: (pre ++ bad :: rest)) mnd s0 s1 =
        .ok (g, [(pre.length + 1, mnd)])) ∧
    (∀ (a b seg2 : List String) (samples : List (List String)) (mnd : String)
        (s0 : Header) (s1 : SiteConstants) (g : Grid),
      _parse2 0 seg2 mnd s0 s1 = .ok g →
      (∀ (k : Nat) (seg : List String), samples.get? k = some seg →
        _parse2 (k + 1) seg mnd s0 s1 = .ok g) →
      parse2 (a :: b :: seg2 :: samples) mnd s0 s1 = .ok (g, [])) := by
  constructor
  · intro a b seg2 pre bad rest mnd s0 s1 g gb hcan hpre hbad hne
    unfold parse2
    have hidx : pyIdxE (a :: b :: seg2 :: (pre ++ bad :: rest)) 2 = .ok seg2 := rfl
    rw [hidx]
    simp only [bindE_ok, hcan]
    have haux := parse2Aux_first_bad mnd s0 s1 g pre 1 bad rest gb
      (fun k s hk => by rw [Nat.add_comm]; exact hpre k s hk)
      (by rwa [Nat.add_comm]) hne
    have hdrop : (a :: b :: seg2 :: (pre ++ bad :: rest)).drop 3 = pre ++ bad :: rest := rfl
    rw [hdrop, haux, Nat.add_comm]
    rfl
  · intro a b seg2 samples mnd s0 s1 g hcan hall
    unfold parse2
    have hidx : pyIdxE (a :: b :: seg2 :: samples) 2 = .ok seg2 := rfl
    rw [hidx]
    simp only [bindE_ok, hcan]
    have haux := parse2Aux_all_ok mnd s0 s1 g samples 1
      (fun k s hk => by rw [Nat.add_comm]; exact hall k s hk)
    have hdrop : (a :: b :: seg2 :: samples).drop 3 = samples := rfl
    rw [hdrop, haux]
    rfl

/-- C5 witness: a file whose first later sample differs from the canonical
grid and whose remaining segment is unparseable garbage still returns the
canonical grid with the single entry (1, path), untouched by the garbage. -/
theorem claim_C5_witness :
    parse2 (["x"] :: ["y"] :: sampg :: (([] : List (List String)) ++ c5bad :: [c5garbage]))
        anyMnd goodHdr goodConsts = .ok (goodGrid, [(1, anyMnd)]) :=
  claim_C5.1 ["x"] ["y"] sampg [] c5bad [c5garbage] anyMnd goodHdr goodConsts
    goodGrid c5badGrid (by decide) (fun k seg hk => absurd hk (by simp))
    (by decide) (by decide)

/-! ## Helper lemmas: the timestamp identity check of `_parse2` and the
overflow-checked arithmetic feeding it -/

theorem _parse2_stamp_error (index : Nat) (seg : List String) (mnd : String)
    (segment0 : Header) (segment1 : SiteConstants) {e : Err}
    (hps : parseStamp seg = .error e) :
    _parse2 index seg mnd segment0 segment1 = .error e := by
  unfold _parse2
  rw [hps]
  rfl

theorem mkTimedelta_cases (t : Int) :
    mkTimedelta t = .ok t ∨ mkTimedelta t = .error .overflowError := by
  unfold mkTimedelta
  split
  · exact Or.inl rfl
  · exact Or.inr rfl

theorem dtAddTd_cases (a b : Int) :
    dtAddTd a b = .ok (a + b) ∨ dtAddTd a b = .error .overflowError := by
  unfold dtAddTd
  split
  · exact Or.inl rfl
  · exact Or.inr rfl

theorem _parse2_mismatch (index : Nat) (seg : List String) (mnd : String)
    (segment0 : Header) (segment1 : SiteConstants) {st2 : Stamp2}
    (hps : parseStamp seg = .ok st2)
    (htd : mkTimedelta ((index : Int) * st2.sample_interval) =
      .ok ((index : Int) * st2.sample_interval))
    (hdt : dtAddTd segment0.start_stamp ((index : Int) * st2.sample_interval) =
      .ok (segment0.start_stamp + (index : Int) * st2.sample_interval))
    (hne : st2.start_stamp ≠ segment0.start_stamp + (index : Int) * st2.sample_interval) :
    _parse2 index seg mnd segment0 segment1 =
      .error (.timestampMismatch segment0.start_stamp st2.start_stamp index
                (tdSeconds st2.sample_interval)) := by
  unfold _parse2
  rw [hps]
  simp only [bindE_ok]
  rw [htd]
  simp only [bindE_ok]
  rw [hdt]
  simp only [bindE_ok]
  rw [if_pos hne]

theorem _parse2_overflow (index : Nat) (seg : List String) (mnd : String)
    (segment0 : Header) (segment1 : SiteConstants) {st2 : Stamp2}
    (hps : parseStamp seg = .ok st2)
    (hov : mkTimedelta ((index : Int) * st2.sample_interval) = .error .overflowError ∨
      dtAddTd segment0.start_stamp ((index : Int) * st2.sample_interval) =
        .error .overflowError) :
    _parse2 index seg mnd segment0 segment1 = .error .overflowError := by
  unfold _parse2
  rw [hps]
  simp only [bindE_ok]
  rcases mkTimedelta_cases ((index : Int) * st2.sample_interval) with hmk | hmk
  · rw [hmk]
    simp only [bindE_ok]
    rcases hov with hov | hov
    · rw [hmk] at hov
      exact Except.noConfusion hov
    · rw [hov]
      rfl
  · rw [hmk]
    rfl

/-- C3 counterexample: the original claim promises that whenever the line-0
parse succeeds and the timestamp identity fails, the sample fails with the
structured timestamp-mismatch error carrying the four values.  At this
sample — interval 10^12 seconds, within the timedelta bound, so the line-0
parse genuinely succeeds — the identity fails at index 1, yet the program
raises an unstructured `OverflowError` at the `datetime + timedelta`
addition before the mismatch error is ever constructed. -/
theorem claim_C3_counterexample :
    parseStamp c3oseg = .ok ⟨15095 * 86400, 1000000000000⟩ ∧
    (15095 * 86400 : Int) ≠ goodHdr.start_stamp + (1 : Int) * 1000000000000 ∧
    _parse2 1 c3oseg anyMnd goodHdr goodConsts = .error .overflowError ∧
    _parse2 1 c3oseg anyMnd goodHdr goodConsts ≠
      .error (.timestampMismatch goodHdr.start_stamp (15095 * 86400) 1
                (tdSeconds 1000000000000)) :=
  ⟨by decide, by decide, by decide, by decide⟩

/-- C3 as amended: success still requires the sample's parsed start timestamp
to equal the header's start timestamp plus index × interval exactly; when the
line-0 parse succeeds and that identity fails, the sample fails with the
timestamp-mismatch error carrying the header start, the parsed sample start,
the sample index and the interval's seconds field — provided index × interval
stays within the timedelta range and the shifted timestamp within the
datetime range; when either overflows, the sample instead fails with an
unstructured `OverflowError` carrying none of those values. -/
theorem claim_C3 :
    (∀ (index : Nat) (seg : List String) (mnd : String) (segment0 : Header)
        (segment1 : SiteConstants) (g : Grid),
      _parse2 index seg mnd segment0 segment1 = .ok g →
      ∃ st2, parseStamp seg = .ok st2 ∧
        st2.start_stamp = segment0.start_stamp + (index : Int) * st2.sample_interval) ∧
    (∀ (index : Nat) (seg : List String) (mnd : String) (segment0 : Header)
        (segment1 : SiteConstants) (st2 : Stamp2),
      parseStamp seg = .ok st2 →
      mkTimedelta ((index : Int) * st2.sample_interval) =
        .ok ((index : Int) * st2.sample_interval) →
      dtAddTd segment0.start_stamp ((index : Int) * st2.sample_interval) =
        .ok (segment0.start_stamp + (index : Int) * st2.sample_interval) →
      st2.start_stamp ≠ segment0.start_stamp + (index : Int) * st2.sample_interval →
      _parse2 index seg mnd segment0 segment1 =
        .error (.timestampMismatch segment0.start_stamp st2.start_stamp index
                  (tdSeconds st2.sample_interval))) ∧
    (∀ (index : Nat) (seg : List String) (mnd : String) (segment0 : Header)
        (segment1 : SiteConstants) (st2 : Stamp2),
      parseStamp seg = .ok st2 →
      (mkTimedelta ((index : Int) * st2.sample_interval) = .error .overflowError ∨
        dtAddTd segment0.start_stamp ((index : Int) * st2.sample_interval) =
          .error .overflowError) →
      _parse2 index seg mnd segment0 segment1 = .error .overflowError) := by
  refine ⟨?_, ?_, ?_⟩
  · intro index seg mnd s0 s1 g hok
    cases hps : parseStamp seg with
    | error e =>
      rw [_parse2_stamp_error index seg mnd s0 s1 hps] at hok
      exact Except.noConfusion hok
    | ok st2 =>
      rcases mkTimedelta_cases ((index : Int) * st2.sample_interval) with hmk | hmk
      · rcases dtAddTd_cases s0.start_stamp ((index : Int) * st2.sample_interval)
          with hdt | hdt
        · by_cases heq :
            st2.start_stamp = s0.start_stamp + (index : Int) * st2.sample_interval
          · exact ⟨st2, rfl, heq⟩
          · rw [_parse2_mismatch index seg mnd s0 s1 hps hmk hdt heq] at hok
            exact Except.noConfusion hok
        · rw [_parse2_overflow index seg mnd s0 s1 hps (Or.inr hdt)] at hok
          exact Except.noConfusion hok
      · rw [_parse2_overflow index seg mnd s0 s1 hps (Or.inl hmk)] at hok
        exact Except.noConfusion hok
  · intro index seg mnd s0 s1 st2 hps htd hdt hne
    exact _parse2_mismatch index seg mnd s0 s1 hps htd hdt hne
  · intro index seg mnd s0 s1 st2 hps hov
    exact _parse2_overflow index seg mnd s0 s1 hps hov

/-- C3 witness: the concrete sample whose start timestamp is one second late,
at index 3 (no overflow), fails citing both timestamps, the index and the
interval seconds; and the overflowing sample at index 1 fails with the
unstructured overflow error. -/
theorem claim_C3_witness :
    _parse2 3 c3seg anyMnd goodHdr goodConsts =
      .error (.timestampMismatch goodHdr.start_stamp (15095 * 86400 + 1) 3
                (tdSeconds 0)) ∧
    _parse2 1 c3oseg anyMnd goodHdr goodConsts = .error .overflowError :=
  ⟨claim_C3.2.1 3 c3seg anyMnd goodHdr goodConsts ⟨15095 * 86400 + 1, 0⟩
     (by decide) (by decide) (by decide) (by decide),
   claim_C3.2.2 1 c3oseg anyMnd goodHdr goodConsts ⟨15095 * 86400, 1000000000000⟩
     (by decide) (Or.inr (by decide))⟩

/-! ## Helper lemmas towards C10: character classes, words and strip -/

theorem wordsAux_nil (acc : List Char) :
    wordsAux acc [] = if acc.isEmpty = true then [] else [acc.reverse] := rfl

theorem wordsAux_cons (acc : List Char) (c : Char) (cs : List Char) :
    wordsAux acc (c :: cs) =
      if pySpace c = true then
        (if acc.isEmpty = true then wordsAux [] cs else acc.reverse :: wordsAux [] cs)
      else wordsAux (c :: acc) cs := rfl

theorem pyDigit_not_space {c : Char} (h : pyDigit c = true) : pySpace c = false := by
  simp only [pyDigit, Bool.or_eq_true, beq_iff_eq] at h
  rcases h with ((((((((h | h) | h) | h) | h) | h) | h) | h) | h) | h <;> subst h <;> rfl

theorem pySpace_ne_hash {c : Char} (h : pySpace c = true) : c ≠ '#' := by
  simp only [pySpace, Bool.or_eq_true, beq_iff_eq] at h
  rcases h with ((((h | h) | h) | h) | h) | h <;> subst h <;> decide

theorem pyDigit_ne_hash {c : Char} (h : pyDigit c = true) : c ≠ '#' := by
  simp only [pyDigit, Bool.or_eq_true, beq_iff_eq] at h
  rcases h with ((((((((h | h) | h) | h) | h) | h) | h) | h) | h) | h <;> subst h <;> decide

theorem wordsAux_ws_prefix :
    ∀ (a t : List Char), (∀ c ∈ a, pySpace c = true) →
      wordsAux [] (a ++ t) = wordsAux [] t := by
  intro a
  induction a with
  | nil => intro t _; rfl
  | cons c cs ih =>
    intro t h
    have hc := h c (List.mem_cons_self c cs)
    rw [List.cons_append, wordsAux_cons, if_pos hc, if_pos List.isEmpty_nil]
    exact ih t fun x hx => h x (List.mem_cons_of_mem c hx)

theorem wordsAux_core :
    ∀ (core acc t : List Char), (∀ c ∈ core, pySpace c = false) →
      wordsAux acc (core ++ t) = wordsAux (core.reverse ++ acc) t := by
  intro core
  induction core with
  | nil => intro acc t _; rfl
  | cons c cs ih =>
    intro acc t h
    have hc := h c (List.mem_cons_self c cs)
    rw [List.cons_append, wordsAux_cons, if_neg (by simp [hc])]
    rw [ih (c :: acc) t fun x hx => h x (List.mem_cons_of_mem c hx)]
    rw [List.reverse_cons, List.append_assoc, List.singleton_append]

theorem wordsAux_ws_only :
    ∀ (b : List Char), (∀ c ∈ b, pySpace c = true) → wordsAux [] b = [] := by
  intro b
  induction b with
  | nil => intro _; rfl
  | cons c cs ih =>
    intro h
    have hc := h c (List.mem_cons_self c cs)
    rw [wordsAux_cons, if_pos hc, if_pos List.isEmpty_nil]
    exact ih fun x hx => h x (List.mem_cons_of_mem c hx)

theorem wordsAux_ws_flush :
    ∀ (b acc : List Char), (∀ c ∈ b, pySpace c = true) → acc ≠ [] →
      wordsAux acc b = [acc.reverse] := by
  intro b
  induction b with
  | nil =>
    intro acc _ hacc
    rw [wordsAux_nil, if_neg (by simpa [List.isEmpty_iff] using hacc)]
  | cons c cs ih =>
    intro acc h hacc
    have hc := h c (List.mem_cons_self c cs)
    rw [wordsAux_cons, if_pos hc, if_neg (by simpa [List.isEmpty_iff] using hacc)]
    rw [wordsAux_ws_only cs fun x hx => h x (List.mem_cons_of_mem c hx)]

theorem stripList_no_ws {l : List Char} (h : ∀ c ∈ l, pySpace c = false) :
    stripList l = l := by
  unfold stripList
  have h1 : l.dropWhile pySpace = l := by
    cases l with
    | nil => rfl
    | cons c cs =>
      rw [List.dropWhile_cons_of_neg]
      rw [h c (List.mem_cons_self c cs)]
      exact Bool.false_ne_true
  rw [h1]
  have h2 : l.reverse.dropWhile pySpace = l.reverse := by
    cases hr : l.reverse with
    | nil => rfl
    | cons c cs =>
      rw [List.dropWhile_cons_of_neg]
      have hc : c ∈ l := by
        rw [← List.mem_reverse, hr]
        exact List.mem_cons_self c cs
      rw [h c hc]
      exact Bool.false_ne_true
  rw [h2, List.reverse_reverse]

theorem strip_decomp (l : List Char) :
    ∃ a b, l = a ++ stripList l ++ b ∧ (∀ c ∈ a, pySpace c = true) ∧
      (∀ c ∈ b, pySpace c = true) := by
  refine ⟨l.takeWhile pySpace, ((l.dropWhile pySpace).reverse.takeWhile pySpace).reverse,
    ?_, fun c hc => List.mem_takeWhile_imp hc, fun c hc => ?_⟩
  · have h1 : l.dropWhile pySpace
        = stripList l ++ ((l.dropWhile pySpace).reverse.takeWhile pySpace).reverse := by
      unfold stripList
      calc l.dropWhile pySpace = (l.dropWhile pySpace).reverse.reverse := by
            rw [List.reverse_reverse]
        _ = ((l.dropWhile pySpace).reverse.takeWhile pySpace ++
              (l.dropWhile pySpace).reverse.dropWhile pySpace).reverse := by
            rw [List.takeWhile_append_dropWhile]
        _ = ((l.dropWhile pySpace).reverse.dropWhile pySpace).reverse ++
              ((l.dropWhile pySpace).reverse.takeWhile pySpace).reverse := by
            rw [List.reverse_append]
    conv_lhs => rw [← List.takeWhile_append_dropWhile (p := pySpace) (l := l), h1]
    rw [List.append_assoc]
  · rw [List.mem_reverse] at hc
    exact List.mem_takeWhile_imp hc

theorem digitsVal_some {ds : List Char} {m : Nat} (hd : digitsVal ds = some m) :
    ds ≠ [] ∧ ∀ c ∈ ds, pyDigit c = true := by
  unfold digitsVal at hd
  split at hd
  · exact absurd hd (by simp)
  · split at hd
    · rename_i hne hall
      refine ⟨by simpa [List.isEmpty_iff] using hne, fun c hc => ?_⟩
      exact List.all_eq_true.1 hall c hc
    · exact absurd hd (by simp)

theorem pyInt_core {v : String} {n : Int} (h : pyInt v = some n) :
    stripList v.data ≠ [] ∧ ∀ c ∈ stripList v.data, pySpace c = false ∧ c ≠ '#' := by
  unfold pyInt at h
  split at h
  · rename_i x ds heq
    cases hdv : digitsVal ds with
    | none => rw [hdv] at h; simp at h
    | some m =>
      obtain ⟨_, hall⟩ := digitsVal_some hdv
      rw [heq]
      refine ⟨by simp, fun c hc => ?_⟩
      rcases List.mem_cons.1 hc with rfl | hc'
      · exact ⟨rfl, by decide⟩
      · exact ⟨pyDigit_not_space (hall c hc'), pyDigit_ne_hash (hall c hc')⟩
  · rename_i x ds heq
    cases hdv : digitsVal ds with
    | none => rw [hdv] at h; simp at h
    | some m =>
      obtain ⟨_, hall⟩ := digitsVal_some hdv
      rw [heq]
      refine ⟨by simp, fun c hc => ?_⟩
      rcases List.mem_cons.1 hc with rfl | hc'
      · exact ⟨rfl, by decide⟩
      · exact ⟨pyDigit_not_space (hall c hc'), pyDigit_ne_hash (hall c hc')⟩
  · cases hdv : digitsVal (stripList v.data) with
    | none => rw [hdv] at h; simp at h
    | some m =>
      obtain ⟨hne, hall⟩ := digitsVal_some hdv
      exact ⟨hne, fun c hc =>
        ⟨pyDigit_not_space (hall c hc), pyDigit_ne_hash (hall c hc)⟩⟩

theorem splitWs_intVal {v : String} (h : intValStr v = true) :
    ∃ (t : String) (n : Int), pySplitWs v = [t] ∧ pyInt t = some n := by
  have hsome : (pyInt v).isSome = true := by
    unfold intValStr at h
    simp only [Bool.and_eq_true] at h
    exact h.1
  rcases Option.isSome_iff_exists.1 hsome with ⟨n, hn⟩
  obtain ⟨hne, hcore⟩ := pyInt_core hn
  obtain ⟨a, b, hdec, ha, hb⟩ := strip_decomp v.data
  have hwords : wordsAux [] v.data = [stripList v.data] := by
    conv_lhs => rw [hdec]
    rw [List.append_assoc, wordsAux_ws_prefix a _ ha,
      wordsAux_core _ _ _ (fun c hc => (hcore c hc).1),
      wordsAux_ws_flush b _ hb (by simpa using hne)]
    simp
  refine ⟨⟨stripList v.data⟩, n, ?_, ?_⟩
  · unfold pySplitWs
    rw [hwords]
    rfl
  · show pyInt ⟨stripList v.data⟩ = some n
    unfold pyInt
    rw [show String.data ⟨stripList v.data⟩ = stripList v.data from rfl]
    rw [stripList_no_ws fun c hc => (hcore c hc).1]
    unfold pyInt at hn
    exact hn

theorem intVal_no_hash {v : String} (h : intValStr v = true) : '#' ∉ v.data := by
  unfold intValStr at h
  simp only [Bool.and_eq_true] at h
  intro hmem
  have := List.all_eq_true.1 h.2 '#' hmem
  simp only [Bool.or_eq_true, beq_iff_eq] at this
  rcases this with ((hw | he) | he) | hd
  · exact absurd rfl (pySpace_ne_hash hw)
  · exact absurd he (by decide)
  · exact absurd he (by decide)
  · exact absurd rfl (pyDigit_ne_hash hd)

/-! ## Helper lemmas towards C10: observations that cannot tell related
lines apart -/

theorem listPre_hashSep {c : Char} {cs : List Char} (hno : '#' ∉ c :: cs) :
    listPre [' ', '#', ' '] (c :: cs) = false := by
  cases cs with
  | nil => simp [listPre]
  | cons d ds =>
    have hd : d ≠ '#' := by
      intro hdq
      exact hno (by rw [hdq]; exact List.mem_cons_of_mem c (List.mem_cons_self '#' ds))
    have hd' : ('#' == d) = false := by
      rw [beq_eq_false_iff_ne]
      exact fun hq => hd hq.symm
    simp [listPre, hd']

theorem splitOnAux_no_hash :
    ∀ (fuel : Nat) (l cur : List Char), '#' ∉ l →
      splitOnAux [' ', '#', ' '] fuel l cur = [cur.reverse ++ l] := by
  intro fuel
  induction fuel with
  | zero =>
    intro l cur hno
    cases l with
    | nil => simp [splitOnAux]
    | cons c cs => rfl
  | succ f ih =>
    intro l cur hno
    cases l with
    | nil => simp [splitOnAux]
    | cons c cs =>
      show splitOnAux [' ', '#', ' '] (f + 1) (c :: cs) cur = _
      unfold splitOnAux
      rw [if_neg (by rw [listPre_hashSep hno]; exact Bool.false_ne_true)]
      rw [ih cs (c :: cur) fun hm => hno (List.mem_cons_of_mem c hm)]
      simp [List.reverse_cons, List.append_assoc]

theorem splitOn_hashSep_single {s : String} (hno : '#' ∉ s.data) :
    pySplitOn s sepHash = [s] := by
  unfold pySplitOn
  rw [if_neg (by decide)]
  rw [show sepHash.data = [' ', '#', ' '] from rfl]
  rw [splitOnAux_no_hash s.data.length s.data [] hno]
  rfl

theorem relLine_hash {l l' : String} (h : relLine l l') :
    pyStartswith l hashMark = pyStartswith l' hashMark := by
  rcases h with rfl | ⟨p, v, v', hp, _, _, rfl, rfl⟩
  · rfl
  · rcases hp with rfl | rfl | rfl <;> rfl

theorem relLine_mainData {l l' : String} (h : relLine l l') :
    pyStartswith l mainDataTag = pyStartswith l' mainDataTag := by
  rcases h with rfl | ⟨p, v, v', hp, _, _, rfl, rfl⟩
  · rfl
  · rcases hp with rfl | rfl | rfl <;> rfl

theorem relLine_errorCode {l l' : String} (h : relLine l l') :
    pyStartswith l errorCodeTag = pyStartswith l' errorCodeTag := by
  rcases h with rfl | ⟨p, v, v', hp, _, _, rfl, rfl⟩
  · rfl
  · rcases hp with rfl | rfl | rfl <;> rfl

theorem relLine_no_hash_append {p v : String}
    (hp : p = pref1 ∨ p = pref2 ∨ p = pref3) (hv : intValStr v = true) :
    '#' ∉ (p ++ v).data := by
  have hnp : '#' ∉ p.data := by
    rcases hp with rfl | rfl | rfl <;> decide
  rw [show (p ++ v).data = p.data ++ v.data from rfl]
  intro hm
  rcases List.mem_append.1 hm with hm | hm
  · exact hnp hm
  · exact intVal_no_hash hv hm

theorem relLine_extract {l l' : String} (h : relLine l l') :
    pyIdxE (pySplitOn l sepHash) 1 = pyIdxE (pySplitOn l' sepHash) 1 := by
  rcases h with rfl | ⟨p, v, v', hp, hv, hv', rfl, rfl⟩
  · rfl
  · rw [splitOn_hashSep_single (relLine_no_hash_append hp hv),
      splitOn_hashSep_single (relLine_no_hash_append hp hv')]
    rfl

theorem constUpdate_rel {l l' : String} (h : relLine l l') {cs cs' : ConstState}
    (hcs : relCS cs cs') :
    (∃ e, constUpdate cs l = .error e ∧ constUpdate cs' l' = .error e) ∨
    (∃ d d', constUpdate cs l = .ok d ∧ constUpdate cs' l' = .ok d' ∧ relCS d d') := by
  obtain ⟨hA, hE, hH⟩ := hcs
  rcases h with rfl | ⟨p, v, v', hp, hv, hv', rfl, rfl⟩
  · unfold constUpdate
    by_cases h1 : pyStartswith l pref1 = true
    · simp only [if_pos h1]
      cases hL : pyLastE (pySplitWs l) with
      | error e => exact Or.inl ⟨e, rfl, rfl⟩
      | ok t =>
        simp only [bindE_ok]
        cases hI : pyIntE t with
        | error e => exact Or.inl ⟨e, rfl, rfl⟩
        | ok n => exact Or.inr ⟨_, _, rfl, rfl, rfl, hE, hH⟩
    · simp only [if_neg h1]
      by_cases h2 : pyStartswith l pref2 = true
      · simp only [if_pos h2]
        cases hL : pyLastE (pySplitWs l) with
        | error e => exact Or.inl ⟨e, rfl, rfl⟩
        | ok t =>
          simp only [bindE_ok]
          cases hI : pyIntE t with
          | error e => exact Or.inl ⟨e, rfl, rfl⟩
          | ok n => exact Or.inr ⟨_, _, rfl, rfl, hA, rfl, hH⟩
      · simp only [if_neg h2]
        by_cases h3 : pyStartswith l pref3 = true
        · simp only [if_pos h3]
          cases hL : pyLastE (pySplitWs l) with
          | error e => exact Or.inl ⟨e, rfl, rfl⟩
          | ok t =>
            simp only [bindE_ok]
            cases hI : pyIntE t with
            | error e => exact Or.inl ⟨e, rfl, rfl⟩
            | ok n => exact Or.inr ⟨_, _, rfl, rfl, hA, hE, rfl⟩
        · simp only [if_neg h3]
          exact Or.inr ⟨cs, cs', rfl, rfl, hA, hE, hH⟩
  · obtain ⟨t, n, hsplit, hint⟩ := splitWs_intVal hv
    obtain ⟨t', n', hsplit', hint'⟩ := splitWs_intVal hv'
    rcases hp with rfl | rfl | rfl
    · unfold constUpdate
      rw [if_pos (show pyStartswith (pref1 ++ v) pref1 = true from rfl),
        if_pos (show pyStartswith (pref1 ++ v') pref1 = true from rfl)]
      rw [show pySplitWs (pref1 ++ v) =
          ["antenna", "azimuth", "angle", "[deg]", ":"] ++ pySplitWs v from rfl, hsplit]
      rw [show pySplitWs (pref1 ++ v') =
          ["antenna", "azimuth", "angle", "[deg]", ":"] ++ pySplitWs v' from rfl, hsplit']
      rw [show pyLastE (["antenna", "azimuth", "angle", "[deg]", ":"] ++ [t]) = .ok t by
        unfold pyLastE; rw [List.getLast?_concat]]
      rw [show pyLastE (["antenna", "azimuth", "angle", "[deg]", ":"] ++ [t']) = .ok t' by
        unfold pyLastE; rw [List.getLast?_concat]]
      simp only [bindE_ok, pyIntE, hint, hint']
      exact Or.inr ⟨_, _, rfl, rfl, rfl, hE, hH⟩
    · unfold constUpdate
      rw [if_neg (show ¬ pyStartswith (pref2 ++ v) pref1 = true from fun hh =>
            Bool.false_ne_true hh),
        if_neg (show ¬ pyStartswith (pref2 ++ v') pref1 = true from fun hh =>
            Bool.false_ne_true hh)]
      rw [if_pos (show pyStartswith (pref2 ++ v) pref2 = true from rfl),
        if_pos (show pyStartswith (pref2 ++ v') pref2 = true from rfl)]
      rw [show pySplitWs (pref2 ++ v) =
          ["height", "above", "ground", "[m]", ":"] ++ pySplitWs v from rfl, hsplit]
      rw [show pySplitWs (pref2 ++ v') =
          ["height", "above", "ground", "[m]", ":"] ++ pySplitWs v' from rfl, hsplit']
      rw [show pyLastE (["height", "above", "ground", "[m]", ":"] ++ [t]) = .ok t by
        unfold pyLastE; rw [List.getLast?_concat]]
      rw [show pyLastE (["height", "above", "ground", "[m]", ":"] ++ [t']) = .ok t' by
        unfold pyLastE; rw [List.getLast?_concat]]
      simp only [bindE_ok, pyIntE, hint, hint']
      exact Or.inr ⟨_, _, rfl, rfl, hA, rfl, hH⟩
    · unfold constUpdate
      rw [if_neg (show ¬ pyStartswith (pref3 ++ v) pref1 = true from fun hh =>
            Bool.false_ne_true hh),
        if_neg (show ¬ pyStartswith (pref3 ++ v') pref1 = true from fun hh =>
            Bool.false_ne_true hh)]
      rw [if_neg (show ¬ pyStartswith (pref3 ++ v) pref2 = true from fun hh =>
            Bool.false_ne_true hh),
        if_neg (show ¬ pyStartswith (pref3 ++ v') pref2 = true from fun hh =>
            Bool.false_ne_true hh)]
      rw [if_pos (show pyStartswith (pref3 ++ v) pref3 = true from rfl),
        if_pos (show pyStartswith (pref3 ++ v') pref3 = true from rfl)]
      rw [show pySplitWs (pref3 ++ v) =
          ["height", "above", "sea", "level", "[m]", ":"] ++ pySplitWs v from rfl, hsplit]
      rw [show pySplitWs (pref3 ++ v') =
          ["height", "above", "sea", "level", "[m]", ":"] ++ pySplitWs v' from rfl, hsplit']
      rw [show pyLastE (["height", "above", "sea", "level", "[m]", ":"] ++ [t]) = .ok t by
        unfold pyLastE; rw [List.getLast?_concat]]
      rw [show pyLastE (["height", "above", "sea", "level", "[m]", ":"] ++ [t']) = .ok t' by
        unfold pyLastE; rw [List.getLast?_concat]]
      simp only [bindE_ok, pyIntE, hint, hint']
      exact Or.inr ⟨_, _, rfl, rfl, hA, hE, rfl⟩

theorem skipComments_nil (line : String) :
    skipComments line [] =
      if pyStartswith line hashMark = true then .error .stopIteration
      else .ok (line, []) := by
  unfold skipComments
  rfl

theorem skipComments_cons (line a : String) (as : List String) :
    skipComments line (a :: as) =
      if pyStartswith line hashMark = true then skipComments a as
      else .ok (line, a :: as) := by
  conv_lhs => unfold skipComments

theorem constLoop_nil (cs : ConstState) (line : String) :
    constLoop cs line [] =
      if pyStartswith line hashMark = true then .ok (cs, line, [])
      else
        match constUpdate cs line with
        | .error e => .error e
        | .ok _ => .error .stopIteration := by
  unfold constLoop
  rfl

theorem constLoop_cons (cs : ConstState) (line a : String) (as : List String) :
    constLoop cs line (a :: as) =
      if pyStartswith line hashMark = true then .ok (cs, line, a :: as)
      else
        match constUpdate cs line with
        | .error e => .error e
        | .ok cs2 => constLoop cs2 a as := by
  conv_lhs => unfold constLoop

theorem varLoop_zero (vars : List String) (line : String) (rest : List String) :
    varLoop vars line rest 0 = .ok (vars, line, rest) := by
  unfold varLoop
  rfl

theorem varLoop_succ (vars : List String) (line : String) (rest : List String) (k : Nat) :
    varLoop vars line rest (k + 1) =
      match pyIdxE (pySplitOn line sepHash) 1 with
      | .error e => .error e
      | .ok nm =>
        match rest with
        | [] => .error .stopIteration
        | l :: r => varLoop (vars ++ [nm]) l r k := by
  conv_lhs => unfold varLoop

theorem skipComments_rel {l l' : String} {r r' : List String} (hl : relLine l l')
    (hr : List.Forall₂ relLine r r') :
    (skipComments l r = .error .stopIteration ∧
      skipComments l' r' = .error .stopIteration) ∨
    (∃ m m' s s', relLine m m' ∧ List.Forall₂ relLine s s' ∧
      skipComments l r = .ok (m, s) ∧ skipComments l' r' = .ok (m', s')) := by
  induction hr generalizing l l' with
  | nil =>
    by_cases hh : pyStartswith l hashMark = true
    · have hh' : pyStartswith l' hashMark = true := by rw [← relLine_hash hl]; exact hh
      left
      exact ⟨by rw [skipComments_nil, if_pos hh],
             by rw [skipComments_nil, if_pos hh']⟩
    · have hh' : ¬ pyStartswith l' hashMark = true := by rw [← relLine_hash hl]; exact hh
      right
      exact ⟨l, l', [], [], hl, List.Forall₂.nil,
             by rw [skipComments_nil, if_neg hh],
             by rw [skipComments_nil, if_neg hh']⟩
  | cons hhd htl ih =>
    rename_i a a' as as'
    by_cases hh : pyStartswith l hashMark = true
    · have hh' : pyStartswith l' hashMark = true := by rw [← relLine_hash hl]; exact hh
      have step : skipComments l (a :: as) = skipComments a as := by
        rw [skipComments_cons, if_pos hh]
      have step' : skipComments l' (a' :: as') = skipComments a' as' := by
        rw [skipComments_cons, if_pos hh']
      rw [step, step']
      exact ih hhd
    · have hh' : ¬ pyStartswith l' hashMark = true := by rw [← relLine_hash hl]; exact hh
      right
      exact ⟨l, l', a :: as, a' :: as', hl, List.Forall₂.cons hhd htl,
             by rw [skipComments_cons, if_neg hh],
             by rw [skipComments_cons, if_neg hh']⟩

theorem constLoop_rel {l l' : String} {r r' : List String} {cs cs' : ConstState}
    (hl : relLine l l') (hr : List.Forall₂ relLine r r') (hcs : relCS cs cs') :
    (∃ e, constLoop cs l r = .error e ∧ constLoop cs' l' r' = .error e) ∨
    (∃ d d' m m' s s', relCS d d' ∧ relLine m m' ∧ List.Forall₂ relLine s s' ∧
      constLoop cs l r = .ok (d, m, s) ∧ constLoop cs' l' r' = .ok (d', m', s')) := by
  induction hr generalizing l l' cs cs' with
  | nil =>
    by_cases hh : pyStartswith l hashMark = true
    · have hh' : pyStartswith l' hashMark = true := by rw [← relLine_hash hl]; exact hh
      right
      exact ⟨cs, cs', l, l', [], [], hcs, hl, List.Forall₂.nil,
             by rw [constLoop_nil, if_pos hh],
             by rw [constLoop_nil, if_pos hh']⟩
    · have hh' : ¬ pyStartswith l' hashMark = true := by rw [← relLine_hash hl]; exact hh
      rcases constUpdate_rel hl hcs with ⟨e, hu, hu'⟩ | ⟨d, d', hu, hu', hd⟩
      · left
        exact ⟨e, by rw [constLoop_nil, if_neg hh, hu],
               by rw [constLoop_nil, if_neg hh', hu']⟩
      · left
        exact ⟨.stopIteration, by rw [constLoop_nil, if_neg hh, hu],
               by rw [constLoop_nil, if_neg hh', hu']⟩
  | cons hhd htl ih =>
    rename_i a a' as as'
    by_cases hh : pyStartswith l hashMark = true
    · have hh' : pyStartswith l' hashMark = true := by rw [← relLine_hash hl]; exact hh
      right
      exact ⟨cs, cs', l, l', a :: as, a' :: as', hcs, hl, List.Forall₂.cons hhd htl,
             by rw [constLoop_cons, if_pos hh],
             by rw [constLoop_cons, if_pos hh']⟩
    · have hh' : ¬ pyStartswith l' hashMark = true := by rw [← relLine_hash hl]; exact hh
      rcases constUpdate_rel hl hcs with ⟨e, hu, hu'⟩ | ⟨d, d', hu, hu', hd⟩
      · left
        exact ⟨e, by rw [constLoop_cons, if_neg hh, hu],
               by rw [constLoop_cons, if_neg hh', hu']⟩
      · have step : constLoop cs l (a :: as) = constLoop d a as := by
          rw [constLoop_cons, if_neg hh, hu]
        have step' : constLoop cs' l' (a' :: as') = constLoop d' a' as' := by
          rw [constLoop_cons, if_neg hh', hu']
        rw [step, step']
        exact ih hhd hd

theorem varLoop_rel :
    ∀ (n : Nat) {l l' : String} {r r' : List String} (vars : List String),
      relLine l l' → List.Forall₂ relLine r r' →
      (∃ e, varLoop vars l r n = .error e ∧ varLoop vars l' r' n = .error e) ∨
      (∃ vs m m' s s', relLine m m' ∧ List.Forall₂ relLine s s' ∧
        varLoop vars l r n = .ok (vs, m, s) ∧ varLoop vars l' r' n = .ok (vs, m', s')) := by
  intro n
  induction n with
  | zero =>
    intro l l' r r' vars hl hr
    right
    exact ⟨vars, l, l', r, r', hl, hr, varLoop_zero vars l r, varLoop_zero vars l' r'⟩
  | succ k ih =>
    intro l l' r r' vars hl hr
    have hex := relLine_extract hl
    cases hx : pyIdxE (pySplitOn l sepHash) 1 with
    | error e =>
      left
      exact ⟨e, by rw [varLoop_succ, hx],
             by rw [varLoop_succ, ← hex, hx]⟩
    | ok nm =>
      cases hr with
      | nil =>
        left
        exact ⟨.stopIteration, by rw [varLoop_succ, hx],
               by rw [varLoop_succ, ← hex, hx]⟩
      | cons hhd htl =>
        rename_i a a' as as'
        have step : varLoop vars l (a :: as) (k + 1) = varLoop (vars ++ [nm]) a as k := by
          rw [varLoop_succ, hx]
        have step' : varLoop vars l' (a' :: as') (k + 1) =
            varLoop (vars ++ [nm]) a' as' k := by
          rw [varLoop_succ, ← hex, hx]
        rw [step, step']
        exact ih (vars ++ [nm]) hhd htl

theorem parse1_rel {seg seg' : List String} (h : List.Forall₂ relLine seg seg')
    (mnd : String) (hdr : Header) :
    (∃ e, parse1 seg mnd hdr = .error e ∧ parse1 seg' mnd hdr = .error e) ∨
    (∃ c c', parse1 seg mnd hdr = .ok c ∧ parse1 seg' mnd hdr = .ok c' ∧
      c.vars = c'.vars) := by
  unfold parse1
  cases h with
  | nil => exact Or.inl ⟨.stopIteration, rfl, rfl⟩
  | cons h0 htl =>
    rename_i L L' R R'
    simp only [pyNext, bindE_ok]
    rcases skipComments_rel h0 htl with ⟨hA, hA'⟩ | ⟨m, m', s, s', hm, hs, hA, hA'⟩
    · rw [hA, hA']
      exact Or.inl ⟨.stopIteration, rfl, rfl⟩
    · simp only [hA, hA', bindE_ok]
      rcases constLoop_rel hm hs ⟨rfl, rfl, rfl⟩ with
        ⟨e, hB, hB'⟩ | ⟨d, d', m2, m2', s2, s2', hd, hm2, hs2, hB, hB'⟩
      · rw [hB, hB']
        exact Or.inl ⟨e, rfl, rfl⟩
      · simp only [hB, hB', bindE_ok]
        rcases skipComments_rel hm2 hs2 with ⟨hC, hC'⟩ | ⟨m3, m3', s3, s3', hm3, hs3, hC, hC'⟩
        · rw [hC, hC']
          exact Or.inl ⟨.stopIteration, rfl, rfl⟩
        · simp only [hC, hC', bindE_ok]
          have hMD := relLine_mainData hm3
          by_cases hmd : pyStartswith m3 mainDataTag = true
          · have hmd' : pyStartswith m3' mainDataTag = true := by rw [← hMD]; exact hmd
            rw [if_neg (fun hc => hc hmd), if_neg (fun hc => hc hmd')]
            cases hs3 with
            | nil => exact Or.inl ⟨.stopIteration, rfl, rfl⟩
            | cons h4 htl4 =>
              rename_i L4 L4' R4 R4'
              simp only [pyNext, bindE_ok]
              rcases skipComments_rel h4 htl4 with
                ⟨hD, hD'⟩ | ⟨m5, m5', s5, s5', hm5, hs5, hD, hD'⟩
              · rw [hD, hD']
                exact Or.inl ⟨.stopIteration, rfl, rfl⟩
              · simp only [hD, hD', bindE_ok]
                rcases varLoop_rel hdr.variable_count.toNat [] hm5 hs5 with
                  ⟨e, hE, hE'⟩ | ⟨vs, m6, m6', s6, s6', hm6, hs6, hE, hE'⟩
                · rw [hE, hE']
                  exact Or.inl ⟨e, rfl, rfl⟩
                · simp only [hE, hE', bindE_ok]
                  cases hv0 : pyIdxE vs 0 with
                  | error e => exact Or.inl ⟨e, rfl, rfl⟩
                  | ok v0 =>
                    simp only [bindE_ok]
                    by_cases hz : v0 = zName
                    · rw [if_neg (show ¬ v0 ≠ zName from fun hc => hc hz)]
                      rw [if_neg (show ¬ v0 ≠ zName from fun hc => hc hz)]
                      have hEC := relLine_errorCode hm6
                      by_cases hec : pyStartswith m6 errorCodeTag = true
                      · have hec' : pyStartswith m6' errorCodeTag = true := by
                          rw [← hEC]; exact hec
                        rw [if_neg (show ¬ ¬ pyStartswith m6 errorCodeTag = true from
                              fun hc => hc hec)]
                        rw [if_neg (show ¬ ¬ pyStartswith m6' errorCodeTag = true from
                              fun hc => hc hec')]
                        cases hs6 with
                        | nil => exact Or.inl ⟨.stopIteration, rfl, rfl⟩
                        | cons h7 htl7 =>
                          rename_i L7 L7' R7 R7'
                          simp only [pyNext, bindE_ok]
                          obtain ⟨ha, he, hh⟩ := hd
                          cases hda : d.angle with
                          | none =>
                            have hda' : d'.angle = none := by
                              rw [hda] at ha
                              exact Option.not_isSome_iff_eq_none.1 (by rw [← ha]; simp)
                            rw [hda']
                            exact Or.inl ⟨.nameError "angle", rfl, rfl⟩
                          | some a =>
                            have hda' : ∃ a', d'.angle = some a' := by
                              rw [hda] at ha
                              exact Option.isSome_iff_exists.1 (by rw [← ha]; rfl)
                            obtain ⟨a', hda'⟩ := hda'
                            rw [hda']
                            cases hde : d.elevation with
                            | none =>
                              have hde' : d'.elevation = none := by
                                rw [hde] at he
                                exact Option.not_isSome_iff_eq_none.1 (by rw [← he]; simp)
                              rw [hde']
                              exact Or.inl ⟨.nameError "elevation", rfl, rfl⟩
                            | some e =>
                              have hde' : ∃ e', d'.elevation = some e' := by
                                rw [hde] at he
                                exact Option.isSome_iff_exists.1 (by rw [← he]; rfl)
                              obtain ⟨e', hde'⟩ := hde'
                              rw [hde']
                              cases hdh : d.height with
                              | none =>
                                have hdh' : d'.height = none := by
                                  rw [hdh] at hh
                                  exact Option.not_isSome_iff_eq_none.1 (by rw [← hh]; simp)
                                rw [hdh']
                                exact Or.inl ⟨.nameError "height", rfl, rfl⟩
                              | some ht =>
                                have hdh' : ∃ h', d'.height = some h' := by
                                  rw [hdh] at hh
                                  exact Option.isSome_iff_exists.1 (by rw [← hh]; rfl)
                                obtain ⟨h', hdh'⟩ := hdh'
                                rw [hdh']
                                exact Or.inr ⟨_, _, rfl, rfl, rfl⟩
                      · have hec' : ¬ pyStartswith m6' errorCodeTag = true := by
                          rw [← hEC]; exact hec
                        rw [if_pos (show ¬ pyStartswith m6 errorCodeTag = true from hec)]
                        rw [if_pos (show ¬ pyStartswith m6' errorCodeTag = true from hec')]
                        exact Or.inl ⟨.errorCodeMisplaced, rfl, rfl⟩
                    · rw [if_pos (show v0 ≠ zName from hz)]
                      rw [if_pos (show v0 ≠ zName from hz)]
                      exact Or.inl ⟨.firstVariableNotZ, rfl, rfl⟩
          · have hmd' : ¬ pyStartswith m3' mainDataTag = true := by rw [← hMD]; exact hmd
            rw [if_pos hmd, if_pos hmd']
            exact Or.inl ⟨.mainDataMisplaced, rfl, rfl⟩

/-! ## C10: the noninterference lemma chain above `parse1` -/

/-- Destructing the segment-list relation: either the two lists are equal, or
both have a head segment, a constants segment and a common tail, with the
constants segments pointwise `relLine`-related. -/
theorem relSegs_cases {a b : List (List String)} (h : relSegs a b) :
    a = b ∨ ∃ s0 s1 s1' rest, List.Forall₂ relLine s1 s1' ∧
      a = s0 :: s1 :: rest ∧ b = s0 :: s1' :: rest := by
  unfold relSegs at h
  split at h
  · rename_i s0 s1 rest t0 t1 rest'
    obtain ⟨h0, h1, h2⟩ := h
    subst h0; subst h2
    exact Or.inr ⟨s0, s1, t1, rest, h1, rfl, rfl⟩
  · exact Or.inl h

theorem relSegs_length {a b : List (List String)} (h : relSegs a b) :
    a.length = b.length := by
  rcases relSegs_cases h with heq | ⟨s0, s1, s1', rest, h1, ha, hb⟩
  · rw [heq]
  · rw [ha, hb]; simp

/-- `_parse2` reads the site constants only through their variable-name
list. -/
theorem _parse2_vars (index : Nat) (seg : List String) (mnd : String)
    (g0 : Header) {cA cB : SiteConstants} (h : cA.vars = cB.vars) :
    _parse2 index seg mnd g0 cA = _parse2 index seg mnd g0 cB := by
  unfold _parse2
  rw [h]

theorem parse2Aux_vars (mnd : String) (g0 : Header) {cA cB : SiteConstants}
    (h : cA.vars = cB.vars) (g2 : Grid) :
    ∀ (l : List (List String)) (idx : Nat),
      parse2Aux mnd g0 cA g2 l idx = parse2Aux mnd g0 cB g2 l idx := by
  intro l
  induction l with
  | nil => intro idx; rfl
  | cons seg rest ih =>
    intro idx
    unfold parse2Aux
    rw [_parse2_vars idx seg mnd g0 h]
    cases hq : _parse2 idx seg mnd g0 cB with
    | error e => simp only [hq]
    | ok gx =>
      simp only [hq]
      by_cases hg : gx ≠ g2
      · rw [if_pos hg]
        rw [if_pos hg]
      · rw [if_neg hg]
        rw [if_neg hg]
        exact ih (idx + 1)

theorem parse2_vars (segments : List (List String)) (mnd : String) (g0 : Header)
    {cA cB : SiteConstants} (h : cA.vars = cB.vars) :
    parse2 segments mnd g0 cA = parse2 segments mnd g0 cB := by
  unfold parse2
  cases hc : pyIdxE segments 2 with
  | error e => simp only [hc, bindE_error]
  | ok seg2 =>
    simp only [hc, bindE_ok]
    rw [_parse2_vars 0 seg2 mnd g0 h]
    cases h2 : _parse2 0 seg2 mnd g0 cB with
    | error e => simp only [h2, bindE_error]
    | ok g2 =>
      simp only [h2, bindE_ok]
      rw [parse2Aux_vars mnd g0 h g2 (segments.drop 3) 1]

/-- Lockstep run of `validateBody` on two segmentations that differ only in
the `relLine`-related constants segment: same error, or successes agreeing on
everything except possibly the numeric site-constant fields. -/
theorem validateBody_rel {s0 s1 s1' : List String} {rest : List (List String)}
    (h1 : List.Forall₂ relLine s1 s1') (mnd : String) :
    (∃ e aug, validateBody (s0 :: s1 :: rest) mnd = (.error e, aug, []) ∧
       validateBody (s0 :: s1' :: rest) mnd = (.error e, aug, [])) ∨
    (∃ g0 c c' g2 aug inc, c.vars = c'.vars ∧
       validateBody (s0 :: s1 :: rest) mnd = (.ok (g0, c, g2), aug, inc) ∧
       validateBody (s0 :: s1' :: rest) mnd = (.ok (g0, c', g2), aug, inc)) := by
  unfold validateBody
  simp only [show pyIdxE (s0 :: s1 :: rest) 0 = Except.ok s0 from rfl,
    show pyIdxE (s0 :: s1' :: rest) 0 = Except.ok s0 from rfl,
    show pyIdxE (s0 :: s1 :: rest) 1 = Except.ok s1 from rfl,
    show pyIdxE (s0 :: s1' :: rest) 1 = Except.ok s1' from rfl]
  rcases hp0 : parse0 s0 mnd with ⟨e | g0, aug⟩
  · simp only [hp0]
    exact Or.inl ⟨e, aug, rfl, rfl⟩
  · simp only [hp0]
    rcases parse1_rel h1 mnd g0 with ⟨e, hA, hB⟩ | ⟨c, c', hA, hB, hvars⟩
    · simp only [hA, hB]
      exact Or.inl ⟨e, aug, rfl, rfl⟩
    · simp only [hA, hB]
      have hp2 : parse2 (s0 :: s1 :: rest) mnd g0 c =
          parse2 (s0 :: s1' :: rest) mnd g0 c' := by
        have hsame : parse2 (s0 :: s1 :: rest) mnd g0 c =
            parse2 (s0 :: s1' :: rest) mnd g0 c := rfl
        rw [hsame]
        exact parse2_vars _ _ _ hvars
      rw [hp2]
      rcases hq : parse2 (s0 :: s1' :: rest) mnd g0 c' with e | ⟨g2, inc⟩
      · simp only [hq]
        exact Or.inl ⟨e, aug, rfl, rfl⟩
      · simp only [hq]
        exact Or.inr ⟨g0, c, c', g2, aug, inc, hvars, rfl, rfl⟩

/-- Lockstep `validateBody` for two related files. -/
theorem validateBody_segs_rel {f f' : String × List String} (hmnd : f.1 = f'.1)
    (hsegs : relSegs (segment f.2) (segment f'.2)) :
    (∃ e aug, validateBody (segment f.2) f.1 = (.error e, aug, []) ∧
       validateBody (segment f'.2) f'.1 = (.error e, aug, [])) ∨
    (∃ g0 c c' g2 aug inc, validateBody (segment f.2) f.1 = (.ok (g0, c, g2), aug, inc) ∧
       validateBody (segment f'.2) f'.1 = (.ok (g0, c', g2), aug, inc)) := by
  rcases relSegs_cases hsegs with heq | ⟨s0, s1, s1', rest, h1, hA, hB⟩
  · rw [← heq, ← hmnd]
    rcases hv : validateBody (segment f.2) f.1 with ⟨e | ⟨g0, c, g2⟩, aug, inc⟩
    · have hinc : inc = [] := validateBody_error_inc hv
      subst hinc
      exact Or.inl ⟨e, aug, rfl, rfl⟩
    · exact Or.inr ⟨g0, c, c, g2, aug, inc, rfl, rfl⟩
  · rw [hA, hB, ← hmnd]
    rcases validateBody_rel h1 f.1 with ⟨e, aug, hvA, hvB⟩ |
      ⟨g0, c, c', g2, aug, inc, _, hvA, hvB⟩
    · exact Or.inl ⟨e, aug, hvA, hvB⟩
    · exact Or.inr ⟨g0, c, c', g2, aug, inc, hvA, hvB⟩

/-- Related files contribute the same representative grid. -/
theorem fileGrid_rel {f f' : String × List String} (hf : relFile f f') :
    fileGrid f = fileGrid f' := by
  obtain ⟨hmnd, hsegs⟩ := hf
  have hlen : (segment f.2).length = (segment f'.2).length := relSegs_length hsegs
  by_cases h50 : (segment f.2).length = 50
  · have h50' : (segment f'.2).length = 50 := by rw [← hlen]; exact h50
    rcases validateBody_segs_rel hmnd hsegs with ⟨e, aug, hvA, hvB⟩ |
      ⟨g0, c, c', g2, aug, inc, hvA, hvB⟩
    · simp [fileGrid, h50, h50', hvA, hvB]
    · simp [fileGrid, h50, h50', hvA, hvB]
  · have h50' : ¬ (segment f'.2).length = 50 := by rw [← hlen]; exact h50
    simp [fileGrid, h50, h50']

/-- One `processFile` step preserves the reporting-relevant state relation
across related files. -/
theorem processFile_rel {st st' : St} (hs : relSt st st') {f f' : String × List String}
    (hf : relFile f f') :
    relSt (processFile st f.1 f.2) (processFile st' f'.1 f'.2) := by
  obtain ⟨hmnd, hsegs⟩ := hf
  have hlen : (segment f.2).length = (segment f'.2).length := relSegs_length hsegs
  obtain ⟨Hir, Hin, Hic, Hau, Hig, Hex, Hpm, Hp0, Hp2⟩ := hs
  by_cases h50 : (segment f.2).length = 50
  · have h50' : (segment f'.2).length = 50 := by rw [← hlen]; exact h50
    rcases validateBody_segs_rel hmnd hsegs with ⟨e, aug, hvA, hvB⟩ |
      ⟨g0, c, c', g2, aug, inc, hvA, hvB⟩
    · rw [processFile_error st f.1 f.2 h50 hvA, processFile_error st' f'.1 f'.2 h50' hvB]
      simp [relSt, Hir, Hin, Hic, Hau, Hig, Hex, Hpm, Hp0, Hp2, hmnd]
    · rw [processFile_ok st f.1 f.2 h50 hvA, processFile_ok st' f'.1 f'.2 h50' hvB]
      simp [relSt, Hir, Hin, Hic, Hau, Hig, Hex, Hpm, Hp0, Hp2, hmnd]
  · have h50' : (segment f'.2).length ≠ 50 := by rw [← hlen]; exact h50
    rw [processFile_irregular st f.1 f.2 h50, processFile_irregular st' f'.1 f'.2 h50']
    simp [relSt, Hir, Hin, Hic, Hau, Hig, Hex, Hpm, Hp0, Hp2, hmnd, hlen]

theorem runFold_rel : ∀ {corpus corpus' : List (String × List String)},
    List.Forall₂ relFile corpus corpus' → ∀ {st st' : St}, relSt st st' →
    relSt (runFold st corpus) (runFold st' corpus') := by
  intro corpus corpus' h
  induction h with
  | nil => intro st st' hs; exact hs
  | cons hf _ ih =>
    intro st st' hs
    exact ih (processFile_rel hs hf)

/-- C10: the numeric values of the three labeled site constants never
influence any classification: two runs over corpora identical except in those
integer values produce states agreeing on all six anomaly collections (and
the rolling previous path, header and grid), and every file's representative
grid is identical across the two corpora. -/
theorem claim_C10 {corpus corpus' : List (String × List String)}
    (h : List.Forall₂ relFile corpus corpus') :
    relSt (runFold initSt corpus) (runFold initSt corpus') ∧
    List.Forall₂ (fun f f' => fileGrid f = fileGrid f') corpus corpus' := by
  constructor
  · exact runFold_rel h ⟨rfl, rfl, rfl, rfl, rfl, rfl, rfl, rfl, rfl⟩
  · induction h with
    | nil => exact .nil
    | cons hf _ ih => exact .cons (fileGrid_rel hf) ih

theorem claim_C10_witness :
    relSt (runFold initSt [(anyMnd, c10linesA)]) (runFold initSt [(anyMnd, c10linesB)]) ∧
    List.Forall₂ (fun f f' => fileGrid f = fileGrid f')
      [(anyMnd, c10linesA)] [(anyMnd, c10linesB)] :=
  claim_C10 (List.Forall₂.cons
    ⟨rfl, by
      have hA : segment c10linesA = [["a"], ["antenna azimuth angle [deg] : 5"]] := by
        decide
      have hB : segment c10linesB = [["a"], ["antenna azimuth angle [deg] : 6"]] := by
        decide
      rw [hA, hB]
      exact ⟨rfl, .cons (Or.inr ⟨pref1, "5", "6", Or.inl rfl, by decide, by decide,
        by decide, by decide⟩) .nil, rfl⟩⟩
    List.Forall₂.nil)


end Sodar
